import Mathlib

/-!
Verification of the spandsp T.30 fax engine core (src/t30.c, src/bell_r2_mf.c).

This file gives a shallow embedding, in Lean, of the functions of the source
that the checked claims are about, and proves or refutes each claim against
that embedding.  Machine integers are modelled as `Nat`/`Int` with explicit
`% 256` (or `&&& 0xFF`) where the C code truncates; C arrays indexed by small
integers are modelled as total functions `Nat → _` (only the indices the code
touches matter); the float energies of the MF detector are modelled as exact
rationals.  Functions that emit HDLC frames through the `send_hdlc` callback
are modelled as returning the list of emitted frames alongside the new session
state.
-/

namespace Spandsp

/-- An HDLC frame: the list of its octets (each < 256 in any reachable state). -/
abbrev Frame := List Nat

/-! ### T.30 constants

The FCF codes and error-status codes below come from `t30.h`, which is not
part of `src/`; the values are the ITU-T T.30 function-control-field octets
that the names in `t30.c` refer to.  None of the claims depends on the
particular numeric values, only on the names being distinct octets. -/

def T30_NULL : Nat := 0x00
def T30_DIS : Nat := 0x80
def T30_CSI : Nat := 0x40
def T30_NSF : Nat := 0x20
def T30_DCS : Nat := 0x82
def T30_TSI : Nat := 0x42
def T30_SUB : Nat := 0xC2
def T30_PWD : Nat := 0xC1
def T30_CFR : Nat := 0x84
def T30_FTT : Nat := 0x44
def T30_CTR : Nat := 0xC4
def T30_EOM : Nat := 0x8E
def T30_MPS : Nat := 0x4E
def T30_EOP : Nat := 0x2E
def T30_PRI_EOM : Nat := 0x9E
def T30_PRI_MPS : Nat := 0x5E
def T30_PRI_EOP : Nat := 0x3E
def T30_PPS : Nat := 0xBE
def T30_EOR : Nat := 0xCE
def T30_CTC : Nat := 0x48
def T30_MCF : Nat := 0x8C
def T30_RTP : Nat := 0xCC
def T30_RTN : Nat := 0x4C
def T30_PPR : Nat := 0xBC
def T30_RNR : Nat := 0xEC
def T30_ERR : Nat := 0x1C
def T30_DCN : Nat := 0xFA
def T30_CRP : Nat := 0x1A
def T4_RCP : Nat := 0x61

/-- Error-status codes (`t30.h`, external header; distinct small values). -/
def T30_ERR_OK : Nat := 0
def T30_ERR_PHBDEADTX : Nat := 24
def T30_ERR_PHDDEADTX : Nat := 25
def T30_ERR_RETRYDCN : Nat := 26
def T30_ERR_NOCARRIERRX : Nat := 27
def T30_ERR_UNEXPECTED : Nat := 28

/-- `MAX_MESSAGE_TRIES` (t30.c line 68). -/
def MAX_MESSAGE_TRIES : Nat := 3

/-- `ms_to_samples` at SAMPLE_RATE = 8000. -/
def msToSamples (t : Nat) : Nat := t * 8000 / 1000

def DEFAULT_TIMER_T2 : Nat := 7000
def DEFAULT_TIMER_T4 : Nat := 3450

/-- The session states of `t30.h` used by the embedded functions. -/
inductive T30StateName where
  | ANSWERING | B | C | D | D_TCF | D_POST_TCF
  | F_TCF | F_CFR | F_FTT
  | F_DOC_NON_ECM | F_POST_DOC_NON_ECM
  | F_DOC_ECM | F_POST_DOC_ECM
  | F_POST_RCP_MCF | F_POST_RCP_PPR | F_POST_RCP_RNR
  | R | T | I | II | II_Q
  | III_Q_MCF | III_Q_RTP | III_Q_RTN
  | IV | IV_PPS_NULL | IV_PPS_Q | IV_PPS_RNR
  | IV_CTC | IV_EOR | IV_EOR_RNR
  | CALL_FINISHED
  deriving DecidableEq, Repr

/-- The phases of `t30.h`. -/
inductive T30Phase where
  | IDLE | A_CED | A_CNG | B_RX | B_TX
  | C_NON_ECM_RX | C_NON_ECM_TX | C_ECM_RX | C_ECM_TX
  | D_RX | D_TX | E | CALL_FINISHED
  deriving DecidableEq, Repr

/-- The slice of `t30_state_t` read or written by the embedded functions.
Fields of the C struct that none of the embedded functions touch (the T.4
image handle, logging, callback pointers, identity strings that are only
parsed, ...) are omitted.  `out`-style emission is handled by returning
`T30S × List Frame` from each embedded function instead. -/
structure T30S where
  state : T30StateName
  phase : T30Phase
  nextPhase : T30Phase          -- next_phase (T30_PHASE_IDLE = none queued)
  rxSignalPresent : Bool
  rxTrained : Bool
  disReceived : Bool            -- dis_received: the DIS-received response bit
  shortTrain : Bool
  inMessage : Bool
  step : Nat
  retries : Nat
  currentStatus : Nat
  timerT2T4 : Int
  timerIsT4 : Bool
  nextTxStep : Nat
  nextRxStep : Nat
  currentFallback : Nat
  trainingCurrentZeros : Nat
  trainingMostZeros : Nat
  crpEnabled : Bool
  receiverNotReadyCount : Nat
  pprCount : Nat
  ecmAtPageEnd : Bool
  ecmPage : Nat
  ecmBlock : Nat
  ecmFramesThisBurst : Nat
  ecmCurrentFrame : Nat
  ecmLen : Nat → Int            -- ecm_len[256]: -1 = slot absent
  ecmData : Nat → Frame         -- ecm_data[256][...]
  ecmFrames : Int               -- ecm_frames: -1 = count not yet known
  ecmFirstBadFrame : Nat
  ecmFrameMap : Nat → Nat       -- ecm_frame_map[3 + 32]
  lastPpsFcf2 : Nat
  disDtcFrame : Nat → Nat       -- dis_dtc_frame[T30_MAX_DIS_DTC_DCS_LEN]
  disDtcLen : Nat
  dcsFrame : Nat → Nat          -- dcs_frame[...]
  dcsLen : Nat
  localNsf : List Nat           -- local_nsf (empty = none; local_nsf_len = length)
  localIdent : List Nat         -- local_ident as character codes (empty = none)
  localPassword : List Nat
  localSubAddress : List Nat
  rxFileSet : Bool              -- rx_file[0] != 0
  txFileSet : Bool              -- tx_file[0] != 0

/-- The DIS-received response bit ORed into every FCF the engine sends
(`type | s->dis_received`, with TRUE = 1). -/
def dBit (s : T30S) : Nat := if s.disReceived then 1 else 0

/-- `set_state` (t30.c:4371): switch state, reset the in-sequence step. -/
def setState (s : T30S) (st : T30StateName) : T30S :=
  { s with state := st, step := 0 }

/-- `set_phase` (t30.c:4271), restricted to the session fields modelled here;
the `set_rx_type`/`set_tx_type` callbacks it performs go to the external modem
layer and carry no information back into the session state. -/
def setPhase (s : T30S) (p : T30Phase) : T30S :=
  if p ≠ s.phase then
    { s with
      rxSignalPresent :=
        if s.phase ≠ T30Phase.A_CED ∧ s.phase ≠ T30Phase.A_CNG then false
        else s.rxSignalPresent,
      rxTrained := false,
      phase := p }
  else s

/-- `queue_phase` (t30.c:4256). -/
def queuePhase (s : T30S) (p : T30Phase) : T30S :=
  if s.rxSignalPresent then { s with nextPhase := p }
  else { setPhase s p with nextPhase := T30Phase.IDLE }

/-- `send_simple_frame` (t30.c:940): a final frame `FF 13 (type|dis_received)`. -/
def simpleFrame (s : T30S) (type : Nat) : Frame :=
  [0xFF, 0x13, type ||| dBit s]

/-- `send_dcn` (t30.c:1564). -/
def sendDcn (s : T30S) : T30S × List Frame :=
  let s := queuePhase s T30Phase.D_TX
  let s := setState s T30StateName.C
  (s, [simpleFrame s T30_DCN])

/-! ### ECM partial-page buffer: receive side (t30.c:2080-2203) -/

/-- One octet of the PPR bit map built by `process_rx_pps` (t30.c:2160-2175):
bit `j` of map octet `i` is set exactly when `ecm_len[8*i + j] < 0`.
This renders the inner `for (j = 0; j < 8; j++)` loop; the octet starts at 0
and each set bit is ORed in as `1 << j`. -/
def frameMapOctet (l : Nat → Int) (i : Nat) : Nat :=
  (List.range 8).foldl
    (fun acc j => if l (8 * i + j) < 0 then acc ||| (1 <<< j) else acc) 0

/-- The `ecm_first_bad_frame` scan of `process_rx_pps`: the smallest
`frame_no < 256` with `ecm_len[frame_no] < 0`, else the initial value 256.
`firstBadAux l fuel k` walks indices `k, k+1, ...` with `fuel` steps left. -/
def firstBadAux (l : Nat → Int) : Nat → Nat → Nat
  | 0, _ => 256
  | fuel + 1, k => if l k < 0 then k else firstBadAux l fuel (k + 1)

def firstBadFrame (l : Nat → Int) : Nat := firstBadAux l 256 0

/-- `t30_ecm_commit_partial_page` (t30.c:844).  The `t4_rx_put_chunk` calls
feed the external page codec; on both exit paths the buffer is cleared
(`ecm_len[i] = -1` for all i) and `ecm_frames` reset to -1, which is the whole
effect on the session state modelled here. -/
def t30EcmCommitPartialPage (s : T30S) : T30S :=
  { s with ecmLen := fun _ => -1, ecmFrames := -1 }

/-- `rx_start_page` (t30.c:298-321), restricted to the modelled fields: the
`t4_rx_set_*`/`t4_rx_start_page` calls configure the external page codec. -/
def rxStartPage (s : T30S) : T30S :=
  { s with ecmLen := fun _ => -1, ecmPage := s.ecmPage + 1, ecmBlock := 0,
           ecmFrames := -1, ecmFramesThisBurst := 0 }

/-- `send_deferred_pps_response` (t30.c:2080). -/
def sendDeferredPpsResponse (s : T30S) : T30S × List Frame :=
  let s := queuePhase s T30Phase.D_TX
  if (s.ecmFirstBadFrame : Int) ≥ s.ecmFrames then
    -- everything was OK: accept the data and move on
    let s :=
      if s.lastPpsFcf2 = T30_NULL then
        t30EcmCommitPartialPage s
      else
        -- confirm the whole page; t4_rx_end_page and the phase-D handler are
        -- external calls
        rxStartPage (t30EcmCommitPartialPage { s with nextRxStep := s.lastPpsFcf2 })
    let s := setState s T30StateName.F_POST_RCP_MCF
    (s, [simpleFrame s T30_MCF])
  else
    -- send the PPR frame built in ecm_frame_map
    let s := setState s T30StateName.F_POST_RCP_PPR
    let s := { s with ecmFrameMap := fun j =>
      if j = 0 then 0xFF
      else if j = 1 then 0x13
      else if j = 2 then T30_PPR ||| dBit s
      else s.ecmFrameMap j }
    (s, [(List.range 35).map s.ecmFrameMap])

/-- The fcf2 values for which `process_rx_pps` accepts the PPS. -/
def ppsFcf2Allowed (f : Nat) : Prop :=
  f = T30_NULL ∨ f = T30_EOP ∨ f = T30_EOM ∨ f = T30_MPS ∨
  f = T30_PRI_EOP ∨ f = T30_PRI_EOM ∨ f = T30_PRI_MPS

instance (f : Nat) : Decidable (ppsFcf2Allowed f) := by
  unfold ppsFcf2Allowed; infer_instance

/-- `process_rx_pps` (t30.c:2118).  `msg` is the received PPS frame (octets).
The local `page = msg[4]`, `block = msg[5]` reads of the C code are unused
there and are dropped; the local `frames` count is only stored when
`ecm_frames < 0` (first PPS for the block), and in the other branch its
0xFF-to-0 adjustment is computed into a local that is never read again. -/
def processRxPPS (s : T30S) (msg : List Nat) : T30S × List Frame :=
  if msg.length < 7 then (s, [])
  else
    let s := { s with lastPpsFcf2 := msg.getD 3 0 &&& 0xFE }
    let frames := msg.getD 6 0 + 1
    let s := if s.ecmFrames < 0 then { s with ecmFrames := (frames : Int) } else s
    -- build the bit map of which frames are stored OK, and the first bad one
    let s := { s with
      ecmFrameMap := fun j =>
        if 3 ≤ j ∧ j < 3 + 32 then frameMapOctet s.ecmLen (j - 3) else s.ecmFrameMap j,
      ecmFirstBadFrame := firstBadFrame s.ecmLen }
    if ppsFcf2Allowed s.lastPpsFcf2 then
      if s.receiverNotReadyCount > 0 then
        let s := queuePhase s T30Phase.D_TX
        let s := { s with receiverNotReadyCount := s.receiverNotReadyCount - 1 }
        let s := setState s T30StateName.F_POST_RCP_RNR
        (s, [simpleFrame s T30_RNR])
      else
        sendDeferredPpsResponse s
    else
      -- unexpected_final_frame (t30.c:1784)
      let s := { s with currentStatus := T30_ERR_UNEXPECTED }
      sendDcn s

/-! ### ECM partial-page buffer: send side (t30.c:869-916, 2206-2284) -/

/-- The search loop of `send_next_ecm_frame` (t30.c:878-887): starting at
index `i`, the first slot with `ecm_len[i] >= 0` among the next `fuel`
indices (`fuel` is `ecm_frames - i`, so the scan stops at `ecm_frames`). -/
def findOkAux (l : Nat → Int) : Nat → Nat → Option Nat
  | 0, _ => none
  | fuel + 1, i => if 0 ≤ l i then some i else findOkAux l fuel (i + 1)

/-- The RCP tail of `send_next_ecm_frame` (t30.c:890-906). -/
def sendRcpStep (s : T30S) : T30S × List Frame :=
  if (s.ecmCurrentFrame : Int) ≤ s.ecmFrames + 3 then
    ({ s with ecmCurrentFrame := s.ecmCurrentFrame + 1, shortTrain := true },
     [[0xFF, 0x03, T4_RCP]])
  else (s, [])

/-- `send_next_ecm_frame` (t30.c:869). -/
def sendNextEcmFrame (s : T30S) : T30S × List Frame :=
  if (s.ecmCurrentFrame : Int) < s.ecmFrames then
    match findOkAux s.ecmLen (s.ecmFrames - s.ecmCurrentFrame).toNat s.ecmCurrentFrame with
    | some i =>
        ({ s with ecmCurrentFrame := i + 1,
                  ecmFramesThisBurst := s.ecmFramesThisBurst + 1 },
         [(s.ecmData i).take (s.ecmLen i).toNat])
    | none => sendRcpStep { s with ecmCurrentFrame := s.ecmFrames.toNat }
  else sendRcpStep s

/-- `send_first_ecm_frame` (t30.c:911). -/
def sendFirstEcmFrame (s : T30S) : T30S × List Frame :=
  sendNextEcmFrame { s with ecmCurrentFrame := 0, ecmFramesThisBurst := 0 }

/-- `process_rx_ppr` (t30.c:2206).  The per-chunk loop over the 32 map octets
is rendered pointwise: for each slot `k < 256`, the new length is -1 when the
corresponding PPR bit is clear (its whole octet being zero is the fast path)
and is retained when the bit is set; map octets whose received octet is zero
are zeroed. -/
def processRxPPR (s : T30S) (msg : List Nat) : T30S × List Frame :=
  let s := { s with pprCount := s.pprCount + 1 }
  if s.pprCount ≥ 4 then
    -- continue to correct (the code unconditionally takes the CTC branch)
    (setState s T30StateName.IV_CTC, [simpleFrame s T30_CTC])
  else if msg.length ≠ 3 + 32 then (s, [])
  else
    let s := { s with
      ecmFrameMap := fun j =>
        if 3 ≤ j ∧ j < 35 ∧ msg.getD j 0 = 0 then 0 else s.ecmFrameMap j,
      ecmLen := fun k =>
        if k < 256 then
          if msg.getD (3 + k / 8) 0 &&& (1 <<< (k % 8)) = 0 then -1 else s.ecmLen k
        else s.ecmLen k }
    -- initiate resending of the remainder of the frames
    let s := setState s T30StateName.IV
    let s := queuePhase s T30Phase.C_ECM_TX
    sendFirstEcmFrame s

/-- `send_pps_frame` (t30.c:1033).  The `(uint8_t)` casts are `% 256`. -/
def sendPPSFrame (s : T30S) : T30S × List Frame :=
  (s, [[0xFF, 0x13, T30_PPS ||| dBit s,
        (if s.ecmAtPageEnd then s.nextTxStep ||| dBit s else T30_NULL) % 256,
        s.ecmPage % 256,
        s.ecmBlock % 256,
        (if s.ecmFramesThisBurst = 0 then 0 else s.ecmFramesThisBurst - 1) % 256]])

/-! ### Arithmetic lemmas about the bit-map helpers -/

theorem orShift_testBit (x n t : Nat) :
    (x ||| (1 <<< n)).testBit t = (x.testBit t || decide (t = n)) := by
  rw [Nat.testBit_or, Nat.one_shiftLeft]
  by_cases h : t = n
  · subst h; simp [Nat.testBit_two_pow_self]
  · simp [h, Nat.testBit_two_pow_of_ne (fun hn => h hn.symm)]

theorem frameMapFold_testBit (l : Nat → Int) (i : Nat) :
    ∀ (n acc t : Nat),
      ((List.range n).foldl
        (fun acc j => if l (8 * i + j) < 0 then acc ||| (1 <<< j) else acc) acc).testBit t
      = (acc.testBit t || (decide (t < n) && decide (l (8 * i + t) < 0))) := by
  intro n
  induction n with
  | zero => simp
  | succ n ih =>
    intro acc t
    rw [List.range_succ, List.foldl_append, List.foldl_cons, List.foldl_nil]
    by_cases hc : l (8 * i + n) < 0
    · simp only [hc, if_pos]
      rw [orShift_testBit, ih]
      by_cases ht : t = n
      · subst ht; simp [hc]
      · simp only [ht, decide_False, Bool.or_false]
        have hd : decide (t < n + 1) = decide (t < n) :=
          decide_eq_decide.mpr (by omega)
        rw [hd]
    · simp only [hc, if_neg, not_false_iff, ih]
      by_cases ht : t = n
      · subst ht; simp [hc]
      · have hd : decide (t < n + 1) = decide (t < n) :=
          decide_eq_decide.mpr (by omega)
        rw [hd]

theorem frameMapOctet_testBit (l : Nat → Int) (i t : Nat) :
    (frameMapOctet l i).testBit t
      = (decide (t < 8) && decide (l (8 * i + t) < 0)) := by
  unfold frameMapOctet
  rw [frameMapFold_testBit]
  simp

theorem firstBadAux_big (l : Nat → Int) :
    ∀ (fuel k : Nat), (∀ j, k ≤ j → j < k + fuel → 0 ≤ l j) →
      firstBadAux l fuel k = 256 := by
  intro fuel
  induction fuel with
  | zero => intro k _; rfl
  | succ fuel ih =>
    intro k h
    unfold firstBadAux
    have h0 : 0 ≤ l k := h k le_rfl (by omega)
    rw [if_neg (by omega)]
    exact ih (k + 1) (fun j h1 h2 => h j (by omega) (by omega))

theorem firstBadAux_le (l : Nat → Int) :
    ∀ (fuel k j : Nat), k ≤ j → j < k + fuel → l j < 0 →
      firstBadAux l fuel k ≤ j := by
  intro fuel
  induction fuel with
  | zero => intro k j h1 h2 _; omega
  | succ fuel ih =>
    intro k j h1 h2 hj
    unfold firstBadAux
    by_cases hk : l k < 0
    · rw [if_pos hk]; exact h1
    · rw [if_neg hk]
      have hkj : k ≠ j := fun he => hk (he ▸ hj)
      exact ih (k + 1) j (by omega) (by omega) hj

theorem firstBadAux_cases (l : Nat → Int) :
    ∀ (fuel k : Nat), firstBadAux l fuel k = 256 ∨
      (k ≤ firstBadAux l fuel k ∧ firstBadAux l fuel k < k + fuel ∧
        l (firstBadAux l fuel k) < 0) := by
  intro fuel
  induction fuel with
  | zero => intro k; left; rfl
  | succ fuel ih =>
    intro k
    unfold firstBadAux
    by_cases hk : l k < 0
    · rw [if_pos hk]; right; exact ⟨le_rfl, by omega, hk⟩
    · rw [if_neg hk]
      rcases ih (k + 1) with h | ⟨h1, h2, h3⟩
      · left; exact h
      · right; exact ⟨by omega, by omega, h3⟩

/-- The branch test of `send_deferred_pps_response`: `ecm_first_bad_frame`
is at least `n` exactly when every slot below `n` is present, for `n ≤ 256`. -/
theorem firstBadFrame_ge_iff (l : Nat → Int) (n : Nat) (hn : n ≤ 256) :
    n ≤ firstBadFrame l ↔ ∀ k, k < n → 0 ≤ l k := by
  constructor
  · intro h k hk
    by_contra hneg
    have hlt : l k < 0 := by omega
    have := firstBadAux_le l 256 0 k (Nat.zero_le k) (by omega) hlt
    unfold firstBadFrame at h
    omega
  · intro h
    unfold firstBadFrame
    rcases firstBadAux_cases l 256 0 with hc | ⟨_, _, h3⟩
    · omega
    · by_contra hlt
      have := h (firstBadAux l 256 0) (by omega)
      omega

theorem getD_range_map (n : Nat) (f : Nat → Nat) (i : Nat) (hi : i < n) :
    ((List.range n).map f).getD i 0 = f i := by
  rw [List.getD_eq_getElem?_getD, List.getElem?_map, List.getElem?_range hi]
  rfl

/-- `x & (1 << j)` is zero exactly when bit `j` of `x` is clear. -/
theorem and_shift_eq_zero_iff (x j : Nat) :
    x &&& (1 <<< j) = 0 ↔ x.testBit j = false := by
  rw [Nat.one_shiftLeft, Nat.and_two_pow]
  rcases h : x.testBit j
  · simp
  · simp [(Nat.two_pow_pos j).ne']

/-! ### Fields untouched by set_phase / queue_phase (used throughout) -/

@[simp] theorem setPhase_state (s : T30S) (p : T30Phase) :
    (setPhase s p).state = s.state := by
  unfold setPhase; split <;> rfl

@[simp] theorem queuePhase_state (s : T30S) (p : T30Phase) :
    (queuePhase s p).state = s.state := by
  unfold queuePhase; split
  · rfl
  · show (setPhase s p).state = s.state; exact setPhase_state s p

@[simp] theorem setPhase_step (s : T30S) (p : T30Phase) :
    (setPhase s p).step = s.step := by
  unfold setPhase; split <;> rfl

@[simp] theorem queuePhase_step (s : T30S) (p : T30Phase) :
    (queuePhase s p).step = s.step := by
  unfold queuePhase; split
  · rfl
  · show (setPhase s p).step = s.step; exact setPhase_step s p

@[simp] theorem setPhase_disReceived (s : T30S) (p : T30Phase) :
    (setPhase s p).disReceived = s.disReceived := by
  unfold setPhase; split <;> rfl

@[simp] theorem queuePhase_disReceived (s : T30S) (p : T30Phase) :
    (queuePhase s p).disReceived = s.disReceived := by
  unfold queuePhase; split
  · rfl
  · show (setPhase s p).disReceived = s.disReceived; exact setPhase_disReceived s p

@[simp] theorem setPhase_inMessage (s : T30S) (p : T30Phase) :
    (setPhase s p).inMessage = s.inMessage := by
  unfold setPhase; split <;> rfl

@[simp] theorem queuePhase_inMessage (s : T30S) (p : T30Phase) :
    (queuePhase s p).inMessage = s.inMessage := by
  unfold queuePhase; split
  · rfl
  · show (setPhase s p).inMessage = s.inMessage; exact setPhase_inMessage s p

@[simp] theorem setPhase_retries (s : T30S) (p : T30Phase) :
    (setPhase s p).retries = s.retries := by
  unfold setPhase; split <;> rfl

@[simp] theorem queuePhase_retries (s : T30S) (p : T30Phase) :
    (queuePhase s p).retries = s.retries := by
  unfold queuePhase; split
  · rfl
  · show (setPhase s p).retries = s.retries; exact setPhase_retries s p

@[simp] theorem setPhase_currentStatus (s : T30S) (p : T30Phase) :
    (setPhase s p).currentStatus = s.currentStatus := by
  unfold setPhase; split <;> rfl

@[simp] theorem queuePhase_currentStatus (s : T30S) (p : T30Phase) :
    (queuePhase s p).currentStatus = s.currentStatus := by
  unfold queuePhase; split
  · rfl
  · show (setPhase s p).currentStatus = s.currentStatus; exact setPhase_currentStatus s p

@[simp] theorem setPhase_timerT2T4 (s : T30S) (p : T30Phase) :
    (setPhase s p).timerT2T4 = s.timerT2T4 := by
  unfold setPhase; split <;> rfl

@[simp] theorem queuePhase_timerT2T4 (s : T30S) (p : T30Phase) :
    (queuePhase s p).timerT2T4 = s.timerT2T4 := by
  unfold queuePhase; split
  · rfl
  · show (setPhase s p).timerT2T4 = s.timerT2T4; exact setPhase_timerT2T4 s p

@[simp] theorem setPhase_timerIsT4 (s : T30S) (p : T30Phase) :
    (setPhase s p).timerIsT4 = s.timerIsT4 := by
  unfold setPhase; split <;> rfl

@[simp] theorem queuePhase_timerIsT4 (s : T30S) (p : T30Phase) :
    (queuePhase s p).timerIsT4 = s.timerIsT4 := by
  unfold queuePhase; split
  · rfl
  · show (setPhase s p).timerIsT4 = s.timerIsT4; exact setPhase_timerIsT4 s p

@[simp] theorem setPhase_nextTxStep (s : T30S) (p : T30Phase) :
    (setPhase s p).nextTxStep = s.nextTxStep := by
  unfold setPhase; split <;> rfl

@[simp] theorem queuePhase_nextTxStep (s : T30S) (p : T30Phase) :
    (queuePhase s p).nextTxStep = s.nextTxStep := by
  unfold queuePhase; split
  · rfl
  · show (setPhase s p).nextTxStep = s.nextTxStep; exact setPhase_nextTxStep s p

@[simp] theorem setPhase_nextRxStep (s : T30S) (p : T30Phase) :
    (setPhase s p).nextRxStep = s.nextRxStep := by
  unfold setPhase; split <;> rfl

@[simp] theorem queuePhase_nextRxStep (s : T30S) (p : T30Phase) :
    (queuePhase s p).nextRxStep = s.nextRxStep := by
  unfold queuePhase; split
  · rfl
  · show (setPhase s p).nextRxStep = s.nextRxStep; exact setPhase_nextRxStep s p

@[simp] theorem setPhase_currentFallback (s : T30S) (p : T30Phase) :
    (setPhase s p).currentFallback = s.currentFallback := by
  unfold setPhase; split <;> rfl

@[simp] theorem queuePhase_currentFallback (s : T30S) (p : T30Phase) :
    (queuePhase s p).currentFallback = s.currentFallback := by
  unfold queuePhase; split
  · rfl
  · show (setPhase s p).currentFallback = s.currentFallback; exact setPhase_currentFallback s p

@[simp] theorem setPhase_trainingCurrentZeros (s : T30S) (p : T30Phase) :
    (setPhase s p).trainingCurrentZeros = s.trainingCurrentZeros := by
  unfold setPhase; split <;> rfl

@[simp] theorem queuePhase_trainingCurrentZeros (s : T30S) (p : T30Phase) :
    (queuePhase s p).trainingCurrentZeros = s.trainingCurrentZeros := by
  unfold queuePhase; split
  · rfl
  · show (setPhase s p).trainingCurrentZeros = s.trainingCurrentZeros; exact setPhase_trainingCurrentZeros s p

@[simp] theorem setPhase_trainingMostZeros (s : T30S) (p : T30Phase) :
    (setPhase s p).trainingMostZeros = s.trainingMostZeros := by
  unfold setPhase; split <;> rfl

@[simp] theorem queuePhase_trainingMostZeros (s : T30S) (p : T30Phase) :
    (queuePhase s p).trainingMostZeros = s.trainingMostZeros := by
  unfold queuePhase; split
  · rfl
  · show (setPhase s p).trainingMostZeros = s.trainingMostZeros; exact setPhase_trainingMostZeros s p

@[simp] theorem setPhase_crpEnabled (s : T30S) (p : T30Phase) :
    (setPhase s p).crpEnabled = s.crpEnabled := by
  unfold setPhase; split <;> rfl

@[simp] theorem queuePhase_crpEnabled (s : T30S) (p : T30Phase) :
    (queuePhase s p).crpEnabled = s.crpEnabled := by
  unfold queuePhase; split
  · rfl
  · show (setPhase s p).crpEnabled = s.crpEnabled; exact setPhase_crpEnabled s p

@[simp] theorem setPhase_receiverNotReadyCount (s : T30S) (p : T30Phase) :
    (setPhase s p).receiverNotReadyCount = s.receiverNotReadyCount := by
  unfold setPhase; split <;> rfl

@[simp] theorem queuePhase_receiverNotReadyCount (s : T30S) (p : T30Phase) :
    (queuePhase s p).receiverNotReadyCount = s.receiverNotReadyCount := by
  unfold queuePhase; split
  · rfl
  · show (setPhase s p).receiverNotReadyCount = s.receiverNotReadyCount; exact setPhase_receiverNotReadyCount s p

@[simp] theorem setPhase_pprCount (s : T30S) (p : T30Phase) :
    (setPhase s p).pprCount = s.pprCount := by
  unfold setPhase; split <;> rfl

@[simp] theorem queuePhase_pprCount (s : T30S) (p : T30Phase) :
    (queuePhase s p).pprCount = s.pprCount := by
  unfold queuePhase; split
  · rfl
  · show (setPhase s p).pprCount = s.pprCount; exact setPhase_pprCount s p

@[simp] theorem setPhase_ecmAtPageEnd (s : T30S) (p : T30Phase) :
    (setPhase s p).ecmAtPageEnd = s.ecmAtPageEnd := by
  unfold setPhase; split <;> rfl

@[simp] theorem queuePhase_ecmAtPageEnd (s : T30S) (p : T30Phase) :
    (queuePhase s p).ecmAtPageEnd = s.ecmAtPageEnd := by
  unfold queuePhase; split
  · rfl
  · show (setPhase s p).ecmAtPageEnd = s.ecmAtPageEnd; exact setPhase_ecmAtPageEnd s p

@[simp] theorem setPhase_ecmPage (s : T30S) (p : T30Phase) :
    (setPhase s p).ecmPage = s.ecmPage := by
  unfold setPhase; split <;> rfl

@[simp] theorem queuePhase_ecmPage (s : T30S) (p : T30Phase) :
    (queuePhase s p).ecmPage = s.ecmPage := by
  unfold queuePhase; split
  · rfl
  · show (setPhase s p).ecmPage = s.ecmPage; exact setPhase_ecmPage s p

@[simp] theorem setPhase_ecmBlock (s : T30S) (p : T30Phase) :
    (setPhase s p).ecmBlock = s.ecmBlock := by
  unfold setPhase; split <;> rfl

@[simp] theorem queuePhase_ecmBlock (s : T30S) (p : T30Phase) :
    (queuePhase s p).ecmBlock = s.ecmBlock := by
  unfold queuePhase; split
  · rfl
  · show (setPhase s p).ecmBlock = s.ecmBlock; exact setPhase_ecmBlock s p

@[simp] theorem setPhase_ecmFramesThisBurst (s : T30S) (p : T30Phase) :
    (setPhase s p).ecmFramesThisBurst = s.ecmFramesThisBurst := by
  unfold setPhase; split <;> rfl

@[simp] theorem queuePhase_ecmFramesThisBurst (s : T30S) (p : T30Phase) :
    (queuePhase s p).ecmFramesThisBurst = s.ecmFramesThisBurst := by
  unfold queuePhase; split
  · rfl
  · show (setPhase s p).ecmFramesThisBurst = s.ecmFramesThisBurst; exact setPhase_ecmFramesThisBurst s p

@[simp] theorem setPhase_ecmCurrentFrame (s : T30S) (p : T30Phase) :
    (setPhase s p).ecmCurrentFrame = s.ecmCurrentFrame := by
  unfold setPhase; split <;> rfl

@[simp] theorem queuePhase_ecmCurrentFrame (s : T30S) (p : T30Phase) :
    (queuePhase s p).ecmCurrentFrame = s.ecmCurrentFrame := by
  unfold queuePhase; split
  · rfl
  · show (setPhase s p).ecmCurrentFrame = s.ecmCurrentFrame; exact setPhase_ecmCurrentFrame s p

@[simp] theorem setPhase_ecmLen (s : T30S) (p : T30Phase) :
    (setPhase s p).ecmLen = s.ecmLen := by
  unfold setPhase; split <;> rfl

@[simp] theorem queuePhase_ecmLen (s : T30S) (p : T30Phase) :
    (queuePhase s p).ecmLen = s.ecmLen := by
  unfold queuePhase; split
  · rfl
  · show (setPhase s p).ecmLen = s.ecmLen; exact setPhase_ecmLen s p

@[simp] theorem setPhase_ecmData (s : T30S) (p : T30Phase) :
    (setPhase s p).ecmData = s.ecmData := by
  unfold setPhase; split <;> rfl

@[simp] theorem queuePhase_ecmData (s : T30S) (p : T30Phase) :
    (queuePhase s p).ecmData = s.ecmData := by
  unfold queuePhase; split
  · rfl
  · show (setPhase s p).ecmData = s.ecmData; exact setPhase_ecmData s p

@[simp] theorem setPhase_ecmFrames (s : T30S) (p : T30Phase) :
    (setPhase s p).ecmFrames = s.ecmFrames := by
  unfold setPhase; split <;> rfl

@[simp] theorem queuePhase_ecmFrames (s : T30S) (p : T30Phase) :
    (queuePhase s p).ecmFrames = s.ecmFrames := by
  unfold queuePhase; split
  · rfl
  · show (setPhase s p).ecmFrames = s.ecmFrames; exact setPhase_ecmFrames s p

@[simp] theorem setPhase_ecmFirstBadFrame (s : T30S) (p : T30Phase) :
    (setPhase s p).ecmFirstBadFrame = s.ecmFirstBadFrame := by
  unfold setPhase; split <;> rfl

@[simp] theorem queuePhase_ecmFirstBadFrame (s : T30S) (p : T30Phase) :
    (queuePhase s p).ecmFirstBadFrame = s.ecmFirstBadFrame := by
  unfold queuePhase; split
  · rfl
  · show (setPhase s p).ecmFirstBadFrame = s.ecmFirstBadFrame; exact setPhase_ecmFirstBadFrame s p

@[simp] theorem setPhase_ecmFrameMap (s : T30S) (p : T30Phase) :
    (setPhase s p).ecmFrameMap = s.ecmFrameMap := by
  unfold setPhase; split <;> rfl

@[simp] theorem queuePhase_ecmFrameMap (s : T30S) (p : T30Phase) :
    (queuePhase s p).ecmFrameMap = s.ecmFrameMap := by
  unfold queuePhase; split
  · rfl
  · show (setPhase s p).ecmFrameMap = s.ecmFrameMap; exact setPhase_ecmFrameMap s p

@[simp] theorem setPhase_lastPpsFcf2 (s : T30S) (p : T30Phase) :
    (setPhase s p).lastPpsFcf2 = s.lastPpsFcf2 := by
  unfold setPhase; split <;> rfl

@[simp] theorem queuePhase_lastPpsFcf2 (s : T30S) (p : T30Phase) :
    (queuePhase s p).lastPpsFcf2 = s.lastPpsFcf2 := by
  unfold queuePhase; split
  · rfl
  · show (setPhase s p).lastPpsFcf2 = s.lastPpsFcf2; exact setPhase_lastPpsFcf2 s p

@[simp] theorem setPhase_disDtcFrame (s : T30S) (p : T30Phase) :
    (setPhase s p).disDtcFrame = s.disDtcFrame := by
  unfold setPhase; split <;> rfl

@[simp] theorem queuePhase_disDtcFrame (s : T30S) (p : T30Phase) :
    (queuePhase s p).disDtcFrame = s.disDtcFrame := by
  unfold queuePhase; split
  · rfl
  · show (setPhase s p).disDtcFrame = s.disDtcFrame; exact setPhase_disDtcFrame s p

@[simp] theorem setPhase_disDtcLen (s : T30S) (p : T30Phase) :
    (setPhase s p).disDtcLen = s.disDtcLen := by
  unfold setPhase; split <;> rfl

@[simp] theorem queuePhase_disDtcLen (s : T30S) (p : T30Phase) :
    (queuePhase s p).disDtcLen = s.disDtcLen := by
  unfold queuePhase; split
  · rfl
  · show (setPhase s p).disDtcLen = s.disDtcLen; exact setPhase_disDtcLen s p

@[simp] theorem setPhase_dcsFrame (s : T30S) (p : T30Phase) :
    (setPhase s p).dcsFrame = s.dcsFrame := by
  unfold setPhase; split <;> rfl

@[simp] theorem queuePhase_dcsFrame (s : T30S) (p : T30Phase) :
    (queuePhase s p).dcsFrame = s.dcsFrame := by
  unfold queuePhase; split
  · rfl
  · show (setPhase s p).dcsFrame = s.dcsFrame; exact setPhase_dcsFrame s p

@[simp] theorem setPhase_dcsLen (s : T30S) (p : T30Phase) :
    (setPhase s p).dcsLen = s.dcsLen := by
  unfold setPhase; split <;> rfl

@[simp] theorem queuePhase_dcsLen (s : T30S) (p : T30Phase) :
    (queuePhase s p).dcsLen = s.dcsLen := by
  unfold queuePhase; split
  · rfl
  · show (setPhase s p).dcsLen = s.dcsLen; exact setPhase_dcsLen s p

@[simp] theorem setPhase_localNsf (s : T30S) (p : T30Phase) :
    (setPhase s p).localNsf = s.localNsf := by
  unfold setPhase; split <;> rfl

@[simp] theorem queuePhase_localNsf (s : T30S) (p : T30Phase) :
    (queuePhase s p).localNsf = s.localNsf := by
  unfold queuePhase; split
  · rfl
  · show (setPhase s p).localNsf = s.localNsf; exact setPhase_localNsf s p

@[simp] theorem setPhase_localIdent (s : T30S) (p : T30Phase) :
    (setPhase s p).localIdent = s.localIdent := by
  unfold setPhase; split <;> rfl

@[simp] theorem queuePhase_localIdent (s : T30S) (p : T30Phase) :
    (queuePhase s p).localIdent = s.localIdent := by
  unfold queuePhase; split
  · rfl
  · show (setPhase s p).localIdent = s.localIdent; exact setPhase_localIdent s p

@[simp] theorem setPhase_localPassword (s : T30S) (p : T30Phase) :
    (setPhase s p).localPassword = s.localPassword := by
  unfold setPhase; split <;> rfl

@[simp] theorem queuePhase_localPassword (s : T30S) (p : T30Phase) :
    (queuePhase s p).localPassword = s.localPassword := by
  unfold queuePhase; split
  · rfl
  · show (setPhase s p).localPassword = s.localPassword; exact setPhase_localPassword s p

@[simp] theorem setPhase_localSubAddress (s : T30S) (p : T30Phase) :
    (setPhase s p).localSubAddress = s.localSubAddress := by
  unfold setPhase; split <;> rfl

@[simp] theorem queuePhase_localSubAddress (s : T30S) (p : T30Phase) :
    (queuePhase s p).localSubAddress = s.localSubAddress := by
  unfold queuePhase; split
  · rfl
  · show (setPhase s p).localSubAddress = s.localSubAddress; exact setPhase_localSubAddress s p

@[simp] theorem setPhase_rxFileSet (s : T30S) (p : T30Phase) :
    (setPhase s p).rxFileSet = s.rxFileSet := by
  unfold setPhase; split <;> rfl

@[simp] theorem queuePhase_rxFileSet (s : T30S) (p : T30Phase) :
    (queuePhase s p).rxFileSet = s.rxFileSet := by
  unfold queuePhase; split
  · rfl
  · show (setPhase s p).rxFileSet = s.rxFileSet; exact setPhase_rxFileSet s p

@[simp] theorem setPhase_txFileSet (s : T30S) (p : T30Phase) :
    (setPhase s p).txFileSet = s.txFileSet := by
  unfold setPhase; split <;> rfl

@[simp] theorem queuePhase_txFileSet (s : T30S) (p : T30Phase) :
    (queuePhase s p).txFileSet = s.txFileSet := by
  unfold queuePhase; split
  · rfl
  · show (setPhase s p).txFileSet = s.txFileSet; exact setPhase_txFileSet s p

@[simp] theorem setPhase_shortTrain (s : T30S) (p : T30Phase) :
    (setPhase s p).shortTrain = s.shortTrain := by
  unfold setPhase; split <;> rfl

@[simp] theorem queuePhase_shortTrain (s : T30S) (p : T30Phase) :
    (queuePhase s p).shortTrain = s.shortTrain := by
  unfold queuePhase; split
  · rfl
  · show (setPhase s p).shortTrain = s.shortTrain; exact setPhase_shortTrain s p

/-! ### A concrete baseline session (used for witnesses and counterexamples) -/

/-- A session as `t30_restart` leaves an answering terminal, restricted to the
modelled fields: empty ECM buffer, no identities configured, counters zero. -/
def s0 : T30S :=
  { state := T30StateName.ANSWERING
    phase := T30Phase.IDLE
    nextPhase := T30Phase.IDLE
    rxSignalPresent := false
    rxTrained := false
    disReceived := false
    shortTrain := false
    inMessage := false
    step := 0
    retries := 0
    currentStatus := T30_ERR_OK
    timerT2T4 := 0
    timerIsT4 := false
    nextTxStep := T30_EOP
    nextRxStep := 0
    currentFallback := 0
    trainingCurrentZeros := 0
    trainingMostZeros := 0
    crpEnabled := false
    receiverNotReadyCount := 0
    pprCount := 0
    ecmAtPageEnd := false
    ecmPage := 0
    ecmBlock := 0
    ecmFramesThisBurst := 0
    ecmCurrentFrame := 0
    ecmLen := fun _ => -1
    ecmData := fun _ => []
    ecmFrames := -1
    ecmFirstBadFrame := 256
    ecmFrameMap := fun _ => 0
    lastPpsFcf2 := 0
    disDtcFrame := fun _ => 0
    disDtcLen := 0
    dcsFrame := fun _ => 0
    dcsLen := 0
    localNsf := []
    localIdent := []
    localPassword := []
    localSubAddress := []
    rxFileSet := false
    txFileSet := false }

/-! ### Claim C1: the PPS response of the ECM receiver -/

/-- The PPR response bit for slot `k`, as laid out on the wire: bit `k % 8`
of map octet `3 + k / 8` of the frame. -/
def pprBit (f : Frame) (k : Nat) : Bool := (f.getD (3 + k / 8) 0).testBit (k % 8)

/-- The block frame count in effect while `process_rx_pps` handles `msg`:
the stored `ecm_frames`, or the count taken from the message for the first
PPS of the block. -/
def ppsBlockFrames (s : T30S) (msg : List Nat) : Int :=
  if s.ecmFrames < 0 then ((msg.getD 6 0 + 1 : Nat) : Int) else s.ecmFrames

/-- Claim C1 as stated, for one PPS delivered to a receiver that is ready
(`receiver_not_ready_count = 0`): if every slot below the block's frame count
is present the reply is MCF; otherwise the reply is a PPR whose bit `k` is set
exactly when slot `k` is still missing *and* `k` is below the frame count,
all bits at or beyond the frame count being clear. -/
def claimC1At (s : T30S) (msg : List Nat) : Prop :=
  ((∀ k : Nat, k < 256 → ((k : Int) < ppsBlockFrames s msg → 0 ≤ s.ecmLen k)) →
      (processRxPPS s msg).2 = [[0xFF, 0x13, T30_MCF ||| dBit s]]) ∧
  (¬(∀ k : Nat, k < 256 → ((k : Int) < ppsBlockFrames s msg → 0 ≤ s.ecmLen k)) →
      (processRxPPS s msg).2.length = 1 ∧
      ((processRxPPS s msg).2.getD 0 []).getD 2 0 = T30_PPR ||| dBit s ∧
      ∀ k : Nat, k < 256 →
        pprBit ((processRxPPS s msg).2.getD 0 []) k
          = (decide ((k : Int) < ppsBlockFrames s msg) && decide (s.ecmLen k = -1)))


/-- The concrete scenario of the claim: frames 0-99 stored (length 68),
frame 100 missing, fresh block (`ecm_frames = -1`). -/
def c1S : T30S := { s0 with ecmLen := fun k => if k < 100 then 68 else -1 }

/-- `PPS-EOP` announcing a block of 101 frames (`msg[6] = 100`). -/
def c1Msg : List Nat := [0xFF, 0x13, T30_PPS, T30_EOP, 0, 0, 100]

set_option maxRecDepth 8000 in
/-- Refutation of C1 as stated: in the claimed scenario the PPR the code
builds also has bit 101 set (slot 101 is still `-1`, and the map scan runs
over all 256 slots, not only those below the frame count). -/
theorem C1_counterexample : ¬ claimC1At c1S c1Msg := by
  intro h
  have hbad : ¬(∀ k : Nat, k < 256 →
      ((k : Int) < ppsBlockFrames c1S c1Msg → 0 ≤ c1S.ecmLen k)) := by decide
  have h101 := (h.2 hbad).2.2 101 (by norm_num)
  have hl : pprBit ((processRxPPS c1S c1Msg).2.getD 0 []) 101 = true := by decide
  have hr : (decide (((101 : Nat) : Int) < ppsBlockFrames c1S c1Msg) &&
      decide (c1S.ecmLen 101 = -1)) = false := by decide
  rw [hl, hr] at h101
  exact absurd h101 (by decide)

/-- `process_rx_pps` in the ready case (`receiver_not_ready_count = 0`,
well-formed message, accepted fcf2) reduces to the deferred response applied
to the updated session. -/
theorem processRxPPS_ready (s : T30S) (msg : List Nat)
    (hlen : ¬ msg.length < 7)
    (hfcf : ppsFcf2Allowed (msg.getD 3 0 &&& 0xFE))
    (hrnr : s.receiverNotReadyCount = 0) :
    processRxPPS s msg =
      sendDeferredPpsResponse
        { s with
          lastPpsFcf2 := msg.getD 3 0 &&& 0xFE
          ecmFrames := ppsBlockFrames s msg
          ecmFrameMap := fun j =>
            if 3 ≤ j ∧ j < 3 + 32 then frameMapOctet s.ecmLen (j - 3)
            else s.ecmFrameMap j
          ecmFirstBadFrame := firstBadFrame s.ecmLen } := by
  unfold processRxPPS ppsBlockFrames
  rw [if_neg hlen]
  by_cases hf : s.ecmFrames < 0
  · simp only [hf, if_true, if_pos]
    rw [if_pos hfcf, if_neg (by omega)]
  · simp only [hf, if_false, if_neg, not_false_iff]
    rw [if_pos hfcf, if_neg (by omega)]

theorem ppsBlockFrames_nonneg (s : T30S) (msg : List Nat) :
    0 ≤ ppsBlockFrames s msg := by
  unfold ppsBlockFrames
  split <;> omega

theorem ppsBlockFrames_le (s : T30S) (msg : List Nat)
    (hm6 : msg.getD 6 0 ≤ 255) (hfr : s.ecmFrames ≤ 256) :
    ppsBlockFrames s msg ≤ 256 := by
  unfold ppsBlockFrames
  split <;> omega

/-- The branch test of `send_deferred_pps_response`, phrased as the claim
phrases it: every slot below the frame count present. -/
theorem firstBad_ge_frames_iff (s : T30S) (msg : List Nat)
    (hm6 : msg.getD 6 0 ≤ 255) (hfr : s.ecmFrames ≤ 256) :
    (ppsBlockFrames s msg ≤ (firstBadFrame s.ecmLen : Int)) ↔
      (∀ k : Nat, k < 256 → ((k : Int) < ppsBlockFrames s msg → 0 ≤ s.ecmLen k)) := by
  have h0 := ppsBlockFrames_nonneg s msg
  have h256 := ppsBlockFrames_le s msg hm6 hfr
  rw [show (ppsBlockFrames s msg ≤ (firstBadFrame s.ecmLen : Int)) ↔
      ((ppsBlockFrames s msg).toNat ≤ firstBadFrame s.ecmLen) from (Int.toNat_le).symm,
    firstBadFrame_ge_iff s.ecmLen (ppsBlockFrames s msg).toNat (by omega)]
  constructor
  · intro h k _ hk
    exact h k (by omega)
  · intro h k hk
    exact h k (by omega) (by omega)

/-- C1, amended: with the receiver ready, a well-formed PPS whose fcf2 is one
of the page-end steps (or NULL) draws MCF - and a commit that clears the
buffer - exactly when every slot below the block's frame count is present;
otherwise it draws a PPR whose bit `k` is set exactly when slot `k`'s length
is still -1, for every `k < 256` - including the slots at or beyond the
block's frame count, which the pruned claim asserted to be clear. -/
theorem C1_amended (s : T30S) (msg : List Nat)
    (hrnr : s.receiverNotReadyCount = 0)
    (hlen : 7 ≤ msg.length)
    (hfcf : ppsFcf2Allowed (msg.getD 3 0 &&& 0xFE))
    (hm6 : msg.getD 6 0 ≤ 255)
    (hfr : s.ecmFrames ≤ 256) :
    ((∀ k : Nat, k < 256 → ((k : Int) < ppsBlockFrames s msg → 0 ≤ s.ecmLen k)) →
        (processRxPPS s msg).2 = [[0xFF, 0x13, T30_MCF ||| dBit s]] ∧
        (processRxPPS s msg).1.state = T30StateName.F_POST_RCP_MCF ∧
        (processRxPPS s msg).1.ecmFrames = -1 ∧
        ∀ k, (processRxPPS s msg).1.ecmLen k = -1) ∧
    (¬(∀ k : Nat, k < 256 → ((k : Int) < ppsBlockFrames s msg → 0 ≤ s.ecmLen k)) →
        (processRxPPS s msg).1.state = T30StateName.F_POST_RCP_PPR ∧
        (processRxPPS s msg).2.length = 1 ∧
        ((processRxPPS s msg).2.getD 0 []).getD 2 0 = T30_PPR ||| dBit s ∧
        ∀ k : Nat, k < 256 →
          pprBit ((processRxPPS s msg).2.getD 0 []) k = decide (s.ecmLen k < 0)) := by
  rw [processRxPPS_ready s msg (by omega) hfcf hrnr]
  unfold sendDeferredPpsResponse
  constructor
  · intro hall
    rw [if_pos]
    · by_cases hnull :
        (queuePhase { s with
            lastPpsFcf2 := msg.getD 3 0 &&& 0xFE
            ecmFrames := ppsBlockFrames s msg
            ecmFrameMap := fun j =>
              if 3 ≤ j ∧ j < 3 + 32 then frameMapOctet s.ecmLen (j - 3)
              else s.ecmFrameMap j
            ecmFirstBadFrame := firstBadFrame s.ecmLen } T30Phase.D_TX).lastPpsFcf2
          = T30_NULL
      · rw [if_pos hnull]
        refine ⟨?_, rfl, rfl, fun k => rfl⟩
        simp [simpleFrame, dBit, setState, t30EcmCommitPartialPage]
      · rw [if_neg hnull]
        refine ⟨?_, rfl, rfl, fun k => rfl⟩
        simp [simpleFrame, dBit, setState, t30EcmCommitPartialPage, rxStartPage]
    · show (_ : Int) ≥ _
      simp only [queuePhase_ecmFirstBadFrame, queuePhase_ecmFrames]
      exact (firstBad_ge_frames_iff s msg hm6 hfr).mpr hall
  · intro hneg
    rw [if_neg]
    · simp only [List.getD_cons_zero, List.length_cons, List.length_nil]
      refine ⟨rfl, by trivial, ?_, ?_⟩
      · rw [getD_range_map 35 _ 2 (by norm_num)]
        simp [setState, dBit]
      · intro k hk
        unfold pprBit
        rw [getD_range_map 35 _ (3 + k / 8) (by omega)]
        have h0 : ¬(3 + k / 8 = 0) := by omega
        have h1 : ¬(3 + k / 8 = 1) := by omega
        have h2 : ¬(3 + k / 8 = 2) := by omega
        have h3 : 3 ≤ 3 + k / 8 ∧ 3 + k / 8 < 3 + 32 := by omega
        simp only [setState, queuePhase_ecmFrameMap, if_neg h0, if_neg h1, if_neg h2,
          if_pos h3]
        rw [show 3 + k / 8 - 3 = k / 8 from by omega, frameMapOctet_testBit]
        rw [show 8 * (k / 8) + k % 8 = k from by omega]
        simp [Nat.mod_lt k (by norm_num : 0 < 8)]
    · show ¬((_ : Int) ≥ _)
      simp only [queuePhase_ecmFirstBadFrame, queuePhase_ecmFrames]
      exact fun hc => hneg ((firstBad_ge_frames_iff s msg hm6 hfr).mp hc)

set_option maxRecDepth 8000 in
/-- Witness for `C1_amended` at the concrete scenario: the hypotheses hold and
the conclusion yields the PPR reply with bit 100 set. -/
theorem C1_amended_witness :
    (processRxPPS c1S c1Msg).1.state = T30StateName.F_POST_RCP_PPR ∧
    pprBit ((processRxPPS c1S c1Msg).2.getD 0 []) 100 = true := by
  have h := C1_amended c1S c1Msg (by decide) (by decide) (by decide) (by decide)
    (by decide)
  have hbad : ¬(∀ k : Nat, k < 256 →
      ((k : Int) < ppsBlockFrames c1S c1Msg → 0 ≤ c1S.ecmLen k)) := by decide
  obtain ⟨hst, -, -, hb⟩ := h.2 hbad
  refine ⟨hst, ?_⟩
  rw [hb 100 (by norm_num)]
  decide

/-! ### Claim C9: only the first PPS of a block stores the frame count -/

/-- `send_deferred_pps_response` either leaves the buffer untouched (PPR
branch) or clears it entirely (MCF/commit branch). -/
theorem sendDeferred_frames (s : T30S) :
    ((sendDeferredPpsResponse s).1.ecmFrames = s.ecmFrames ∧
       (sendDeferredPpsResponse s).1.ecmLen = s.ecmLen) ∨
    ((sendDeferredPpsResponse s).1.ecmFrames = -1 ∧
       ∀ k, (sendDeferredPpsResponse s).1.ecmLen k = -1) := by
  unfold sendDeferredPpsResponse
  simp only []
  split_ifs with h1 h2 <;>
    simp [setState, t30EcmCommitPartialPage, rxStartPage]

/-- C9: once `ecm_frames` has been set by the first PPS of a block
(`ecm_frames >= 0`), a later PPS never stores its frames-in-burst octet: the
whole outcome of `process_rx_pps` is independent of `msg[6]`, and the stored
count only changes back to -1 when the buffer is cleared by a commit. -/
theorem C9_theorem (s : T30S) (msg msg' : List Nat) :
    (0 ≤ s.ecmFrames → msg.length = msg'.length →
      (∀ i : Nat, i ≠ 6 → msg.getD i 0 = msg'.getD i 0) →
      processRxPPS s msg = processRxPPS s msg') ∧
    (0 ≤ s.ecmFrames →
      ((processRxPPS s msg).1.ecmFrames = s.ecmFrames ∨
        ((processRxPPS s msg).1.ecmFrames = -1 ∧
          ∀ k, (processRxPPS s msg).1.ecmLen k = -1))) := by
  constructor
  · intro hfr hlen hagree
    have h3 := hagree 3 (by norm_num)
    have hneg : ¬(s.ecmFrames < 0) := by omega
    unfold processRxPPS
    rw [hlen, h3]
    simp only [hneg, if_false]
  · intro hfr
    have hneg : ¬(s.ecmFrames < 0) := by omega
    unfold processRxPPS
    by_cases h7 : msg.length < 7
    · rw [if_pos h7]; left; rfl
    · rw [if_neg h7]
      simp only [hneg, if_false]
      by_cases hok : ppsFcf2Allowed (msg.getD 3 0 &&& 0xFE)
      · rw [if_pos hok]
        by_cases hr : s.receiverNotReadyCount > 0
        · rw [if_pos hr]; left; simp [setState]
        · rw [if_neg hr]
          rcases sendDeferred_frames
              { s with
                lastPpsFcf2 := msg.getD 3 0 &&& 0xFE
                ecmFrameMap := fun j =>
                  if 3 ≤ j ∧ j < 3 + 32 then frameMapOctet s.ecmLen (j - 3)
                  else s.ecmFrameMap j
                ecmFirstBadFrame := firstBadFrame s.ecmLen } with
            ⟨ha, hb⟩ | ⟨ha, hb⟩
          · left; rw [ha]
          · right; exact ⟨ha, hb⟩
      · rw [if_neg hok]
        left
        simp [sendDcn, setState]

/-- Concrete instantiation of C9: a block whose count (101) is already known,
and two PPS messages that differ only in their frames-in-burst octet. -/
def c9S : T30S :=
  { s0 with ecmFrames := 101, ecmLen := fun k => if k < 100 then 68 else -1 }

def c9Msg : List Nat := [0xFF, 0x13, T30_PPS, T30_EOP, 0, 0, 7]

def c9MsgB : List Nat := [0xFF, 0x13, T30_PPS, T30_EOP, 0, 0, 200]

/-- Witness for `C9_theorem`: with the count already stored, the two PPS
messages differing only at octet 6 produce identical outcomes. -/
theorem C9_witness : processRxPPS c9S c9Msg = processRxPPS c9S c9MsgB :=
  (C9_theorem c9S c9Msg c9MsgB).1 (by decide) (by decide)
    (fun i hi => by
      match i with
      | 0 => rfl
      | 1 => rfl
      | 2 => rfl
      | 3 => rfl
      | 4 => rfl
      | 5 => rfl
      | 6 => exact absurd rfl hi
      | n + 7 => rfl)

/-! ### Claim C2: PPR processing at the ECM sender -/

/-- Claim C2 as stated: after a PPR is processed, slot `k` is retained
(`length ≠ -1`) exactly when bit `k` of the PPR map is set. -/
def claimC2At (s : T30S) (msg : List Nat) : Prop :=
  ∀ k : Nat, k < 256 →
    ((processRxPPR s msg).1.ecmLen k ≠ -1 ↔
      (msg.getD (3 + k / 8) 0).testBit (k % 8))

/-- ECM sender that had already had slot 0 acknowledged (`length = -1`),
slots 1-3 still pending, in a block of 4 frames. -/
def c2S : T30S :=
  { s0 with state := T30StateName.IV_PPS_Q, ecmFrames := 4,
            ecmLen := fun k => if k < 4 ∧ k ≠ 0 then 68 else -1 }

/-- A PPR whose bit 0 is set (the far end complains about slot 0, which this
end did not even send this time) and all other bits clear. -/
def c2Msg : List Nat := [0xFF, 0x13, T30_PPR, 1] ++ List.replicate 31 0

/-- Refutation of C2 as stated: a set bit only *retains* the slot's length;
if the length was already -1 it stays -1, so the sets differ. -/
theorem C2_counterexample : ¬ claimC2At c2S c2Msg := by
  intro h
  have h0 := h 0 (by norm_num)
  have hlen0 : (processRxPPR c2S c2Msg).1.ecmLen 0 = -1 := by decide
  have hbit : (c2Msg.getD (3 + 0 / 8) 0).testBit (0 % 8) = true := by decide
  exact absurd (h0.mpr (by rw [hbit])) (by simp [hlen0])

theorem sendNextEcmFrame_ecmLen (s : T30S) :
    (sendNextEcmFrame s).1.ecmLen = s.ecmLen := by
  unfold sendNextEcmFrame sendRcpStep
  by_cases h1 : (s.ecmCurrentFrame : Int) < s.ecmFrames
  · rw [if_pos h1]
    rcases findOkAux s.ecmLen (s.ecmFrames - (s.ecmCurrentFrame : Int)).toNat
        s.ecmCurrentFrame with _ | i
    · simp only []
      split_ifs <;> rfl
    · rfl
  · rw [if_neg h1]
    split_ifs <;> rfl

/-- C2, amended: after a PPR processed in the selective-repeat path (fewer
than four consecutive PPRs, well-formed 35-octet frame), slot `k` is retained
exactly when bit `k` of the PPR map is set *and* the slot was present before;
a set bit retains whatever was stored, it cannot resurrect a slot that was
already -1. -/
theorem C2_amended (s : T30S) (msg : List Nat)
    (hppr : s.pprCount + 1 < 4)
    (hlen : msg.length = 3 + 32) :
    ∀ k : Nat, k < 256 →
      ((processRxPPR s msg).1.ecmLen k ≠ -1 ↔
        ((msg.getD (3 + k / 8) 0).testBit (k % 8) ∧ s.ecmLen k ≠ -1)) := by
  intro k hk
  unfold processRxPPR
  rw [if_neg (by simp only [setState]; omega), if_neg (by omega)]
  simp only [setState]
  rw [show ((sendFirstEcmFrame _).1.ecmLen = _) from sendNextEcmFrame_ecmLen _]
  simp only [queuePhase_ecmLen]
  rw [if_pos hk]
  by_cases hbit : msg.getD (3 + k / 8) 0 &&& (1 <<< (k % 8)) = 0
  · have hb := (and_shift_eq_zero_iff _ _).mp hbit
    rw [if_pos hbit, hb]
    simp
  · have hb : (msg.getD (3 + k / 8) 0).testBit (k % 8) = true := by
      rcases hx : (msg.getD (3 + k / 8) 0).testBit (k % 8)
      · exact absurd ((and_shift_eq_zero_iff _ _).mpr hx) hbit
      · rfl
    rw [if_neg hbit, hb]
    simp

/-- Witness for `C2_amended`: slot 1 (pending, bit clear in the PPR) is
cleared; the equivalence holds at the concrete input. -/
theorem C2_amended_witness :
    (processRxPPR c2S c2Msg).1.ecmLen 1 ≠ -1 ↔
      ((c2Msg.getD (3 + 1 / 8) 0).testBit (1 % 8) ∧ c2S.ecmLen 1 ≠ -1) :=
  C2_amended c2S c2Msg (by decide) (by decide) 1 (by norm_num)

/-! ### Claim C3: the wire format of the PPS frame -/

/-- Claim C3 as stated ("FCF = PPS" and "fcf2 = next-tx step / NULL" read, as
everywhere in the engine, with the DIS-received response bit ORed in): the
final octet is frames-in-burst minus one, with 0xFF when the count is zero. -/
def claimC3At (s : T30S) : Prop :=
  (sendPPSFrame s).2 =
    [[0xFF, 0x13, T30_PPS ||| dBit s,
      (if s.ecmAtPageEnd then s.nextTxStep ||| dBit s else T30_NULL) % 256,
      s.ecmPage % 256, s.ecmBlock % 256,
      if s.ecmFramesThisBurst = 0 then 0xFF
      else (s.ecmFramesThisBurst - 1) % 256]]

/-- An ECM sender at page end about to acknowledge a zero-frame burst
(block 1, page 0, no frames resent). -/
def c3S : T30S :=
  { s0 with state := T30StateName.IV_PPS_Q, disReceived := true,
            ecmAtPageEnd := true, nextTxStep := T30_EOP,
            ecmBlock := 1, ecmFramesThisBurst := 0 }

/-- Refutation of C3 as stated: with a zero frames-in-burst count the code
writes 0x00 into the final octet (`(count == 0) ? 0 : count - 1`), not the
0xFF wrap the claim asserts. -/
theorem C3_counterexample : ¬ claimC3At c3S := by
  unfold claimC3At
  decide

/-- C3, amended: the PPS frame is `FF 13 PPS fcf2 page block count-1`, where
the final octet is the frames-in-burst count minus one and 0x00 - not 0xFF -
is placed there when the count is zero. -/
theorem C3_amended (s : T30S) (hb : s.ecmFramesThisBurst ≤ 256) :
    ∃ f, (sendPPSFrame s).2 = [f] ∧ f.length = 7 ∧
      f.getD 0 0 = 0xFF ∧ f.getD 1 0 = 0x13 ∧
      f.getD 2 0 = T30_PPS ||| dBit s ∧
      f.getD 3 0 = (if s.ecmAtPageEnd then s.nextTxStep ||| dBit s else T30_NULL) % 256 ∧
      f.getD 4 0 = s.ecmPage % 256 ∧
      f.getD 5 0 = s.ecmBlock % 256 ∧
      (s.ecmFramesThisBurst = 0 → f.getD 6 0 = 0) ∧
      (1 ≤ s.ecmFramesThisBurst → f.getD 6 0 = s.ecmFramesThisBurst - 1) := by
  refine ⟨_, rfl, rfl, rfl, rfl, rfl, rfl, rfl, rfl, ?_, ?_⟩
  · intro h0
    simp [h0]
  · intro h1
    have hne : ¬ s.ecmFramesThisBurst = 0 := by omega
    simp only [List.getD_cons_succ, List.getD_cons_zero, hne, if_false]
    exact Nat.mod_eq_of_lt (by omega)

/-- Witness for `C3_amended` at the zero-burst sender: the final octet is 0. -/
theorem C3_amended_witness :
    ∃ f, (sendPPSFrame c3S).2 = [f] ∧ f.getD 6 0 = 0 := by
  obtain ⟨f, hf, -, -, -, -, -, -, -, h6, -⟩ := C3_amended c3S (by decide)
  exact ⟨f, hf, h6 (by decide)⟩

/-! ### Claim C4: the TCF trainability test (t30.c:490-594) -/

/-- The bit-rate column of `fallback_sequence` (t30.c:258-275); index 8 is
the all-zero terminator row. -/
def fallbackBitRate : Nat → Nat
  | 0 => 14400
  | 1 => 12000
  | 2 => 9600
  | 3 => 9600
  | 4 => 7200
  | 5 => 7200
  | 6 => 4800
  | 7 => 2400
  | _ => 0

/-- The data-bit path of `t30_non_ecm_put_bit` (t30.c:568-594).  In state
F_TCF a one-bit folds the current zero run into the maximum and resets it; a
zero-bit extends the current run.  The F_DOC_NON_ECM branch feeds the external
`t4_rx_put_bit` page codec and is outside the modelled state; like the states
the C switch does not list, it leaves the modelled fields unchanged. -/
def nonEcmPutBitData (s : T30S) (bit : Bool) : T30S :=
  match s.state with
  | T30StateName.F_TCF =>
      if bit then
        { s with
          trainingMostZeros :=
            if s.trainingCurrentZeros > s.trainingMostZeros then s.trainingCurrentZeros
            else s.trainingMostZeros,
          trainingCurrentZeros := 0 }
      else { s with trainingCurrentZeros := s.trainingCurrentZeros + 1 }
  | _ => s

/-- The `PUTBIT_CARRIER_DOWN` branch of `t30_non_ecm_put_bit`
(t30.c:490-561), including the queued-phase flush at its end. -/
def nonEcmCarrierDown (s : T30S) : T30S × List Frame :=
  let wasTrained := s.rxTrained
  let s := { s with rxSignalPresent := false, rxTrained := false }
  let r :=
    match s.state with
    | T30StateName.F_TCF =>
        if wasTrained then
          let s := { s with trainingMostZeros :=
            if s.trainingCurrentZeros > s.trainingMostZeros then s.trainingCurrentZeros
            else s.trainingMostZeros }
          if s.trainingMostZeros < fallbackBitRate s.currentFallback then
            let s := setPhase s T30Phase.B_TX
            let s := setState s T30StateName.F_FTT
            (s, [simpleFrame s T30_FTT])
          else
            let s := { s with shortTrain := true, inMessage := true }
            let s := rxStartPage s
            let s := setPhase s T30Phase.B_TX
            let s := setState s T30StateName.F_CFR
            (s, [simpleFrame s T30_CFR])
        else (s, [])
    | T30StateName.F_POST_DOC_NON_ECM =>
        ((if s.currentStatus = T30_ERR_NOCARRIERRX then
            { s with currentStatus := T30_ERR_OK } else s), [])
    | _ =>
        if wasTrained then
          let s := setState s T30StateName.F_POST_DOC_NON_ECM
          let s := setPhase s T30Phase.D_RX
          let s := { s with timerT2T4 := (msToSamples DEFAULT_TIMER_T2 : Int),
                            timerIsT4 := false }
          ((if s.currentStatus = T30_ERR_NOCARRIERRX then
              { s with currentStatus := T30_ERR_OK } else s), [])
        else ({ s with currentStatus := T30_ERR_NOCARRIERRX }, [])
  if r.1.nextPhase ≠ T30Phase.IDLE then
    ({ setPhase r.1 r.1.nextPhase with nextPhase := T30Phase.IDLE }, r.2)
  else r

/-- The pure counter fold of the F_TCF data-bit path: `(current, most)`. -/
def tcfCounters : Nat × Nat → List Bool → Nat × Nat
  | p, [] => p
  | (cur, most), b :: bs =>
      if b then tcfCounters (0, if cur > most then cur else most) bs
      else tcfCounters (cur + 1, most) bs

/-- Specification-side: the number of leading zero bits of a stream. -/
def leadZeros : List Bool → Nat
  | [] => 0
  | b :: bs => if b then 0 else leadZeros bs + 1

/-- Specification-side: the longest run of consecutive zero bits anywhere in
the stream (the maximum of `leadZeros` over all suffixes). -/
def longestZeroRun : List Bool → Nat
  | [] => 0
  | b :: bs => max (leadZeros (b :: bs)) (longestZeroRun bs)

theorem leadZeros_le_longestZeroRun (bs : List Bool) :
    leadZeros bs ≤ longestZeroRun bs := by
  cases bs with
  | nil => exact le_rfl
  | cons b bs => exact le_max_left _ _

theorem tcfCounters_spec (bs : List Bool) :
    ∀ cur most : Nat,
      max (tcfCounters (cur, most) bs).1 (tcfCounters (cur, most) bs).2
        = max most (max (cur + leadZeros bs) (longestZeroRun bs)) := by
  induction bs with
  | nil =>
    intro cur most
    simp [tcfCounters, leadZeros, longestZeroRun]
    omega
  | cons b bs ih =>
    intro cur most
    have hlz := leadZeros_le_longestZeroRun bs
    cases b
    · rw [show tcfCounters (cur, most) (false :: bs) = tcfCounters (cur + 1, most) bs
          from rfl,
        ih,
        show longestZeroRun (false :: bs)
            = max (leadZeros (false :: bs)) (longestZeroRun bs) from rfl,
        show leadZeros (false :: bs) = leadZeros bs + 1 from rfl]
      omega
    · rw [show tcfCounters (cur, most) (true :: bs)
            = tcfCounters (0, if cur > most then cur else most) bs from rfl,
        ih,
        show longestZeroRun (true :: bs)
            = max (leadZeros (true :: bs)) (longestZeroRun bs) from rfl,
        show leadZeros (true :: bs) = 0 from rfl]
      split_ifs <;> omega

theorem nonEcmPutBitData_tcf (s : T30S) (h : s.state = T30StateName.F_TCF)
    (b : Bool) :
    nonEcmPutBitData s b =
      { s with
        trainingCurrentZeros := if b then 0 else s.trainingCurrentZeros + 1,
        trainingMostZeros :=
          if b then
            (if s.trainingCurrentZeros > s.trainingMostZeros then s.trainingCurrentZeros
             else s.trainingMostZeros)
          else s.trainingMostZeros } := by
  unfold nonEcmPutBitData
  rw [h]
  cases b <;> rfl

theorem tcfFeed_eq (bs : List Bool) :
    ∀ s : T30S, s.state = T30StateName.F_TCF →
      bs.foldl nonEcmPutBitData s =
        { s with
          trainingCurrentZeros :=
            (tcfCounters (s.trainingCurrentZeros, s.trainingMostZeros) bs).1,
          trainingMostZeros :=
            (tcfCounters (s.trainingCurrentZeros, s.trainingMostZeros) bs).2 } := by
  induction bs with
  | nil => intro s _; rfl
  | cons b bs ih =>
    intro s h
    rw [List.foldl_cons, nonEcmPutBitData_tcf s h b,
      ih { s with
            trainingCurrentZeros := if b then 0 else s.trainingCurrentZeros + 1,
            trainingMostZeros :=
              if b then
                (if s.trainingCurrentZeros > s.trainingMostZeros then s.trainingCurrentZeros
                 else s.trainingMostZeros)
              else s.trainingMostZeros } h]
    cases b <;> rfl

/-- C4: after feeding the TCF bits in state F_TCF (counters starting at 0, as
`PUTBIT_TRAINING_SUCCEEDED` leaves them), carrier-down with the receiver
trained sends CFR and enters F_CFR exactly when the longest run of zero bits
reaches the current fallback entry's bit rate, and otherwise sends FTT and
enters F_FTT. -/
theorem C4_theorem (s : T30S) (bs : List Bool)
    (hstate : s.state = T30StateName.F_TCF)
    (htr : s.rxTrained = true)
    (hcur : s.trainingCurrentZeros = 0)
    (hmost : s.trainingMostZeros = 0) :
    (fallbackBitRate s.currentFallback ≤ longestZeroRun bs →
        (nonEcmCarrierDown (bs.foldl nonEcmPutBitData s)).1.state
            = T30StateName.F_CFR ∧
        (nonEcmCarrierDown (bs.foldl nonEcmPutBitData s)).2
            = [[0xFF, 0x13, T30_CFR ||| dBit s]]) ∧
    (longestZeroRun bs < fallbackBitRate s.currentFallback →
        (nonEcmCarrierDown (bs.foldl nonEcmPutBitData s)).1.state
            = T30StateName.F_FTT ∧
        (nonEcmCarrierDown (bs.foldl nonEcmPutBitData s)).2
            = [[0xFF, 0x13, T30_FTT ||| dBit s]]) := by
  rw [tcfFeed_eq bs s hstate, hcur, hmost]
  have hmax := tcfCounters_spec bs 0 0
  simp only [Nat.zero_add, Nat.zero_max, Nat.max_eq_right (leadZeros_le_longestZeroRun bs)]
    at hmax
  unfold nonEcmCarrierDown
  simp only [hstate]
  rw [htr]
  simp only [if_pos rfl]
  set p := tcfCounters (0, 0) bs with hp
  have hmost2 : (if p.1 > p.2 then p.1 else p.2) = longestZeroRun bs := by
    rw [← hmax]
    split_ifs <;> omega
  constructor
  · intro hge
    have hlt : ¬ (longestZeroRun bs < fallbackBitRate s.currentFallback) := by omega
    rw [hmost2, if_neg hlt]
    constructor
    · split_ifs <;> simp [setState]
    · split_ifs <;> simp [simpleFrame, dBit, setState, rxStartPage]
  · intro hlt
    rw [hmost2, if_pos hlt]
    constructor
    · split_ifs <;> simp [setState]
    · split_ifs <;> simp [simpleFrame, dBit, setState]

theorem leadZeros_replicate (n : Nat) :
    leadZeros (List.replicate n false) = n := by
  induction n with
  | zero => rfl
  | succ n ih => simp [List.replicate_succ, leadZeros, ih]

theorem longestZeroRun_replicate (n : Nat) :
    longestZeroRun (List.replicate n false) = n := by
  induction n with
  | zero => rfl
  | succ n ih =>
    rw [List.replicate_succ,
      show longestZeroRun (false :: List.replicate n false)
          = max (leadZeros (false :: List.replicate n false))
              (longestZeroRun (List.replicate n false)) from rfl,
      ih, show leadZeros (false :: List.replicate n false)
          = leadZeros (List.replicate n false) + 1 from rfl,
      leadZeros_replicate]
    omega

/-- An answerer in F_TCF at the last fallback entry (2400 bps), trained. -/
def c4S : T30S :=
  { s0 with state := T30StateName.F_TCF, rxTrained := true, currentFallback := 7 }

/-- Witness for `C4_theorem`: 2400 zero bits at 2400 bps draw CFR / F_CFR. -/
theorem C4_witness :
    (nonEcmCarrierDown
        ((List.replicate 2400 false).foldl nonEcmPutBitData c4S)).1.state
      = T30StateName.F_CFR ∧
    (nonEcmCarrierDown
        ((List.replicate 2400 false).foldl nonEcmPutBitData c4S)).2
      = [[0xFF, 0x13, T30_CFR ||| dBit c4S]] :=
  (C4_theorem c4S (List.replicate 2400 false) rfl rfl rfl rfl).1
    (by rw [longestZeroRun_replicate]; decide)

/-! ### Claim C5: pruning of DIS/DTC/DCS capability frames (t30.c:1197, 1515) -/

/-- The scan loop of `prune_dis_dtc` / `prune_dcs`: octets are visited from
18 downward (`pruneScanA f n` visits octet `n + 4` first when `n ≥ 1`); each
visited octet has its top (extension) bit stripped (`&= 0x7F`), and the scan
stops at the first octet left non-zero, or at index 4 when octets 18..5 are
all zero after stripping.  Returns the stripped frame and the break index. -/
def pruneScanA : (Nat → Nat) → Nat → ((Nat → Nat) × Nat)
  | f, 0 => (f, 4)
  | f, n + 1 =>
      let f' := Function.update f (n + 5) (f (n + 5) &&& 0x7F)
      if f' (n + 5) ≠ 0 then (f', n + 5) else pruneScanA f' n

/-- `prune_dis_dtc` / `prune_dcs` as a pure function on the frame bytes: the
scan from octet 18, the resulting length `i + 1`, and the extension-bit fill
of octets 5..i-1 (`|= DISBIT8`, rendered pointwise over the independent
iterations of the C loop). -/
def pruneFrame (f : Nat → Nat) : (Nat → Nat) × Nat :=
  let r := pruneScanA f 14
  (fun j => if 5 ≤ j ∧ j < r.2 then r.1 j ||| 0x80 else r.1 j, r.2 + 1)

/-- `prune_dis_dtc` (t30.c:1197): prune the DIS/DTC frame in place and store
its length.  (`t30_decode_dis_dtc_dcs` at its end only logs.) -/
def pruneDisDtc (s : T30S) : T30S :=
  { s with disDtcFrame := (pruneFrame s.disDtcFrame).1,
           disDtcLen := (pruneFrame s.disDtcFrame).2 }

/-- `prune_dcs` (t30.c:1515). -/
def pruneDcs (s : T30S) : T30S :=
  { s with dcsFrame := (pruneFrame s.dcsFrame).1,
           dcsLen := (pruneFrame s.dcsFrame).2 }

theorem pruneScanA_brk_le (n : Nat) :
    ∀ f, (pruneScanA f n).2 ≤ n + 4 := by
  induction n with
  | zero => intro f; exact le_rfl
  | succ n ih =>
    intro f
    unfold pruneScanA
    simp only []
    split_ifs with h
    · exact le_rfl
    · exact le_trans (ih _) (by omega)

theorem pruneScanA_untouched (n : Nat) :
    ∀ f j, (j < (pruneScanA f n).2 ∨ n + 4 < j) →
      (pruneScanA f n).1 j = f j := by
  induction n with
  | zero => intro f j _; rfl
  | succ n ih =>
    intro f j hj
    unfold pruneScanA at hj ⊢
    simp only [] at hj ⊢
    by_cases h : Function.update f (n + 5) (f (n + 5) &&& 0x7F) (n + 5) ≠ 0
    · rw [if_pos h] at hj ⊢
      have : j ≠ n + 5 := by omega
      exact Function.update_noteq this _ f
    · rw [if_neg h] at hj ⊢
      have hb := pruneScanA_brk_le n (Function.update f (n + 5) (f (n + 5) &&& 0x7F))
      have hj' : j ≠ n + 5 := by omega
      rw [ih _ j (by omega)]
      exact Function.update_noteq hj' _ f

theorem pruneScanA_zero_above (n : Nat) :
    ∀ f j, (pruneScanA f n).2 < j → j ≤ n + 4 →
      (pruneScanA f n).1 j = 0 := by
  induction n with
  | zero =>
    intro f j h1 h2
    unfold pruneScanA at h1
    omega
  | succ n ih =>
    intro f j h1 h2
    unfold pruneScanA at h1 ⊢
    simp only [] at h1 ⊢
    by_cases h : Function.update f (n + 5) (f (n + 5) &&& 0x7F) (n + 5) ≠ 0
    · rw [if_pos h] at h1 ⊢
      omega
    · rw [if_neg h] at h1 ⊢
      push_neg at h
      by_cases hj : j = n + 5
      · rw [pruneScanA_untouched n _ j (by right; omega), hj]
        exact h
      · exact ih _ j h1 (by omega)

theorem pruneScanA_brk_spec (n : Nat) :
    ∀ f, (pruneScanA f n).2 = 4 ∨
      (5 ≤ (pruneScanA f n).2 ∧
        (pruneScanA f n).1 (pruneScanA f n).2
          = f (pruneScanA f n).2 &&& 0x7F ∧
        (pruneScanA f n).1 (pruneScanA f n).2 ≠ 0) := by
  induction n with
  | zero => intro f; left; rfl
  | succ n ih =>
    intro f
    unfold pruneScanA
    simp only []
    split_ifs with h
    · right
      refine ⟨by omega, ?_, h⟩
      exact Function.update_same _ _ _
    · rcases ih (Function.update f (n + 5) (f (n + 5) &&& 0x7F)) with h4 | ⟨h5, hv, hnz⟩
      · left; exact h4
      · right
        refine ⟨h5, ?_, hnz⟩
        rw [hv]
        have hb := pruneScanA_brk_le n (Function.update f (n + 5) (f (n + 5) &&& 0x7F))
        rw [Function.update_noteq (by omega) _ f]

/-- Claim C5 as stated: after pruning, *every* octet `i` with `3 ≤ i < length`
has its top bit set exactly when `i < length - 1`. -/
def claimC5At (f : Nat → Nat) : Prop :=
  ∀ i, 3 ≤ i → i < (pruneFrame f).2 →
    (((pruneFrame f).1 i).testBit 7 ↔ i < (pruneFrame f).2 - 1)

/-- A built DIS skeleton with typical capabilities: FCF 0x80, octet 3 zero
(T.30 bits 1-8: no T.37/T.38), octet 4 = 0x02 (bit 10, ready to receive),
octet 5 = 0x74 (widths/lengths/min-scan-time), octet 8 = 0x10 (bit 45, set
unconditionally by `build_dis_or_dtc`), everything above zero. -/
def c5Frame : Nat → Nat := fun j =>
  if j = 0 then 0xFF else if j = 1 then 0x13 else if j = 2 then 0x80
  else if j = 4 then 0x02 else if j = 5 then 0x74 else if j = 8 then 0x10
  else 0

/-- Refutation of C5 as stated: octets 3 and 4 (T.30 bits 1-16) carry no
extension bit and are never touched by the prune loops (which stop at octet
5); octet 3 of the pruned frame has its top bit clear although the length
here is 9. -/
theorem C5_counterexample : ¬ claimC5At c5Frame := by
  intro h
  have h3 := h 3 (by norm_num) (by decide)
  have hb : ((pruneFrame c5Frame).1 3).testBit 7 = false := by decide
  exact absurd (h3.mpr (by decide)) (by simp [hb])

/-- C5, amended: the extension-bit invariant holds for the extension-bearing
octets, i.e. from octet 5 (T.30 bit 24, the first extension bit) on: for
every input frame and every `i` with `5 ≤ i < length`, octet `i` of the
pruned frame has its top bit set exactly when `i < length - 1`.  Octets 3 and
4 are outside the prune loops' range. -/
theorem C5_amended (f : Nat → Nat) :
    ∀ i, 5 ≤ i → i < (pruneFrame f).2 →
      (((pruneFrame f).1 i).testBit 7 ↔ i < (pruneFrame f).2 - 1) := by
  intro i h5 hlen
  unfold pruneFrame at hlen ⊢
  simp only [] at hlen ⊢
  by_cases hi : i < (pruneScanA f 14).2
  · rw [if_pos ⟨h5, hi⟩]
    constructor
    · intro _; omega
    · intro _
      rw [Nat.testBit_or]
      simp [show Nat.testBit 128 7 = true from by decide]
  · rw [if_neg (by omega)]
    have hieq : i = (pruneScanA f 14).2 := by omega
    rcases pruneScanA_brk_spec 14 f with h4 | ⟨hb5, hv, hnz⟩
    · omega
    · constructor
      · intro htb
        exfalso
        rw [hieq, hv] at htb
        have hlt : f (pruneScanA f 14).2 &&& 0x7F < 2 ^ 7 :=
          lt_of_le_of_lt (Nat.and_le_right) (by norm_num)
        rw [Nat.testBit_to_div_mod, Nat.div_eq_of_lt hlt] at htb
        simp at htb
      · intro hcon
        omega

/-- Witness for `C5_amended`: octet 5 of the pruned typical DIS frame. -/
theorem C5_amended_witness :
    ((pruneFrame c5Frame).1 5).testBit 7 ↔ 5 < (pruneFrame c5Frame).2 - 1 :=
  C5_amended c5Frame 5 (by norm_num) (by decide)

/-! ### The command senders reached by repeat_last_command (t30.c:952-1615) -/

/-- `send_20digit_msg_frame` (t30.c:952): header, FCF with the response bit,
the identity's characters in reverse order, space padding up to 23 octets. -/
def msg20Frame (s : T30S) (cmd : Nat) (msg : List Nat) : Frame :=
  [0xFF, 0x03, cmd ||| dBit s] ++ msg.reverse ++ List.replicate (20 - msg.length) 0x20

/-- `send_ident_frame` (t30.c:971): sends only when an ident is configured;
returns TRUE when it sent. -/
def sendIdentFrame (s : T30S) (cmd : Nat) : Bool × List Frame :=
  if s.localIdent ≠ [] then (true, [msg20Frame s cmd s.localIdent])
  else (false, [])

/-- `send_pw_frame` (t30.c:985). -/
def sendPwFrame (s : T30S) : Bool × List Frame :=
  if s.localPassword ≠ [] then (true, [msg20Frame s T30_PWD s.localPassword])
  else (false, [])

/-- `send_sub_frame` (t30.c:998). -/
def sendSubFrame (s : T30S) : Bool × List Frame :=
  if s.localSubAddress ≠ [] then (true, [msg20Frame s T30_SUB s.localSubAddress])
  else (false, [])

/-- `send_nsf_frame` (t30.c:1011). -/
def sendNsfFrame (s : T30S) : Bool × List Frame :=
  if s.localNsf ≠ [] then (true, [[0xFF, 0x03, T30_NSF ||| dBit s] ++ s.localNsf])
  else (false, [])

/-- `set_dis_or_dtc` (t30.c:1050): FCF octet = DIS with the response bit;
bit 10 (octet 4 bit 1) tracks rx_file, bit 9 (octet 4 bit 0) tracks tx_file. -/
def setDisOrDtc (s : T30S) : T30S :=
  let f := Function.update s.disDtcFrame 2 (T30_DIS ||| dBit s)
  let f := Function.update f 4
    (if s.rxFileSet then f 4 ||| (1 <<< 1) else f 4 &&& 0xFD)
  let f := Function.update f 4
    (if s.txFileSet then f 4 ||| (1 <<< 0) else f 4 &&& 0xFE)
  { s with disDtcFrame := f }

/-- `send_dis_or_dtc_sequence` (t30.c:1572): prune, enter state R, then send
the first frame of the (NSF) (CSI) DIS sequence, recording the step. -/
def sendDisOrDtcSequence (s : T30S) : T30S × List Frame :=
  let s := pruneDisDtc s
  let s := setState s T30StateName.R
  let n := sendNsfFrame s
  if n.1 then ({ s with step := 0 }, n.2)
  else
    let c := sendIdentFrame s T30_CSI
    if c.1 then ({ s with step := 1 }, c.2)
    else
      let s := setDisOrDtc s
      ({ s with step := 2 }, [(List.range s.disDtcLen).map s.disDtcFrame])

/-- `send_dcs_sequence` (t30.c:1592): prune, enter state D, then send the
first frame of the (PWD) (SUB) (TSI) DCS sequence, recording the step. -/
def sendDcsSequence (s : T30S) : T30S × List Frame :=
  let s := pruneDcs s
  let s := setState s T30StateName.D
  let p := sendPwFrame s
  if p.1 then ({ s with step := 0 }, p.2)
  else
    let b := sendSubFrame s
    if b.1 then ({ s with step := 1 }, b.2)
    else
      let t := sendIdentFrame s T30_TSI
      if t.1 then ({ s with step := 2 }, t.2)
      else ({ s with step := 3 }, [(List.range s.dcsLen).map s.dcsFrame])

/-- `repeat_last_command` (t30.c:4699). -/
def repeatLastCommand (s : T30S) : T30S × List Frame :=
  match s.state with
  | T30StateName.R =>
      sendDisOrDtcSequence (setPhase { s with disReceived := false } T30Phase.B_TX)
  | T30StateName.III_Q_MCF =>
      let s := setPhase s T30Phase.D_TX
      (s, [simpleFrame s T30_MCF])
  | T30StateName.III_Q_RTP =>
      let s := setPhase s T30Phase.D_TX
      (s, [simpleFrame s T30_RTP])
  | T30StateName.III_Q_RTN =>
      let s := setPhase s T30Phase.D_TX
      (s, [simpleFrame s T30_RTN])
  | T30StateName.II_Q =>
      let s := setPhase s T30Phase.D_TX
      (s, [simpleFrame s s.nextTxStep])
  | T30StateName.IV_PPS_NULL =>
      sendPPSFrame (setPhase s T30Phase.D_TX)
  | T30StateName.IV_PPS_Q =>
      sendPPSFrame (setPhase s T30Phase.D_TX)
  | T30StateName.IV_PPS_RNR =>
      let s := setPhase s T30Phase.D_TX
      (s, [simpleFrame s T30_RNR])
  | T30StateName.IV_EOR_RNR =>
      let s := setPhase s T30Phase.D_TX
      (s, [simpleFrame s T30_RNR])
  | T30StateName.D =>
      sendDcsSequence (setPhase s T30Phase.B_TX)
  | T30StateName.F_FTT =>
      let s := setPhase s T30Phase.B_TX
      (s, [simpleFrame s T30_FTT])
  | T30StateName.F_CFR =>
      let s := setPhase s T30Phase.B_TX
      (s, [simpleFrame s T30_CFR])
  | T30StateName.D_POST_TCF =>
      -- need to send the whole training thing again
      sendDcsSequence (setPhase { s with shortTrain := false } T30Phase.B_TX)
  | _ => (s, [])   -- F_POST_RCP_RNR and the default case: nothing to repeat

/-- `timer_t4_expired` (t30.c:4846). -/
def timerT4Expired (s : T30S) : T30S × List Frame :=
  let s := { s with retries := s.retries + 1 }
  if s.retries > MAX_MESSAGE_TRIES then
    let s := { s with currentStatus :=
      match s.state with
      | T30StateName.D_POST_TCF => T30_ERR_PHBDEADTX
      | T30StateName.II_Q => T30_ERR_PHDDEADTX
      | T30StateName.IV_PPS_NULL => T30_ERR_PHDDEADTX
      | T30StateName.IV_PPS_Q => T30_ERR_PHDDEADTX
      | _ => T30_ERR_RETRYDCN }
    sendDcn s
  else
    repeatLastCommand s

/-! ### Claim C6: T4 exhaustion in state II_Q -/

/-- One non-exhausted T4 expiry in II_Q: the retry counter is bumped and the
last post-page command (`next_tx_step`) is re-sent; state stays II_Q. -/
theorem t4_IIQ_step (s : T30S) (hstate : s.state = T30StateName.II_Q)
    (hr : s.retries + 1 ≤ MAX_MESSAGE_TRIES) :
    timerT4Expired s
      = (setPhase { s with retries := s.retries + 1 } T30Phase.D_TX,
         [[0xFF, 0x13, s.nextTxStep ||| dBit s]]) := by
  unfold timerT4Expired
  rw [if_neg (show ¬(s.retries + 1 > MAX_MESSAGE_TRIES) from Nat.not_lt.mpr hr)]
  unfold repeatLastCommand
  simp only [hstate]
  simp [simpleFrame, dBit]

/-- An exhausted T4 expiry in II_Q: status PHDDEADTX, DCN sent, state C. -/
theorem t4_IIQ_exhaust (s : T30S) (hstate : s.state = T30StateName.II_Q)
    (hr : s.retries + 1 > MAX_MESSAGE_TRIES) :
    (timerT4Expired s).1.currentStatus = T30_ERR_PHDDEADTX ∧
    (timerT4Expired s).1.state = T30StateName.C ∧
    (timerT4Expired s).2 = [[0xFF, 0x13, T30_DCN ||| dBit s]] := by
  unfold timerT4Expired
  rw [if_pos (show s.retries + 1 > MAX_MESSAGE_TRIES from hr)]
  unfold sendDcn
  simp only [hstate]
  refine ⟨?_, ?_, ?_⟩
  · simp [setState]
  · simp [setState]
  · simp [simpleFrame, dBit, setState]

/-- Claim C6 as stated, at a session with a fresh retry counter: the third
consecutive T4 expiry in II_Q yields DCN and status PHDDEADTX. -/
def claimC6At (s : T30S) : Prop :=
  s.state = T30StateName.II_Q → s.retries = 0 →
    ((timerT4Expired (timerT4Expired (timerT4Expired s).1).1).1.currentStatus
        = T30_ERR_PHDDEADTX ∧
     (timerT4Expired (timerT4Expired (timerT4Expired s).1).1).2
        = [[0xFF, 0x13, T30_DCN ||| dBit s]])

/-- A sender in II_Q that has just sent MPS, retry counter fresh. -/
def c6S : T30S := { s0 with state := T30StateName.II_Q, nextTxStep := T30_MPS }

/-- Refutation of C6 as stated: the third expiry still re-sends the command
(`++retries > MAX_MESSAGE_TRIES` with MAX_MESSAGE_TRIES = 3 first fails on
the fourth expiry); after three expiries the status is still OK and the MPS
was re-sent, not DCN. -/
theorem C6_counterexample : ¬ claimC6At c6S := by
  intro h
  have := h rfl rfl
  revert this
  decide

/-- C6, amended: starting from a fresh retry counter in II_Q, the first three
consecutive T4 expiries each re-send the last command and stay in II_Q; the
fourth expiry sends DCN with status PHDDEADTX and moves to state C. -/
theorem C6_amended (s : T30S)
    (hstate : s.state = T30StateName.II_Q)
    (hr : s.retries = 0) :
    (timerT4Expired s).2 = [[0xFF, 0x13, s.nextTxStep ||| dBit s]] ∧
    (timerT4Expired s).1.state = T30StateName.II_Q ∧
    (timerT4Expired (timerT4Expired s).1).2
      = [[0xFF, 0x13, s.nextTxStep ||| dBit s]] ∧
    (timerT4Expired (timerT4Expired s).1).1.state = T30StateName.II_Q ∧
    (timerT4Expired (timerT4Expired (timerT4Expired s).1).1).2
      = [[0xFF, 0x13, s.nextTxStep ||| dBit s]] ∧
    (timerT4Expired (timerT4Expired (timerT4Expired s).1).1).1.state
      = T30StateName.II_Q ∧
    (timerT4Expired (timerT4Expired (timerT4Expired
        (timerT4Expired s).1).1).1).1.currentStatus = T30_ERR_PHDDEADTX ∧
    (timerT4Expired (timerT4Expired (timerT4Expired
        (timerT4Expired s).1).1).1).1.state = T30StateName.C ∧
    (timerT4Expired (timerT4Expired (timerT4Expired
        (timerT4Expired s).1).1).1).2 = [[0xFF, 0x13, T30_DCN ||| dBit s]] := by
  have h1 := t4_IIQ_step s hstate (by rw [hr]; decide)
  have hs1 : (timerT4Expired s).1
      = setPhase { s with retries := s.retries + 1 } T30Phase.D_TX := by rw [h1]
  have hstate1 : (timerT4Expired s).1.state = T30StateName.II_Q := by
    rw [hs1]; simp [hstate]
  have hr1 : (timerT4Expired s).1.retries = 1 := by rw [hs1]; simp [hr]
  have hnx1 : (timerT4Expired s).1.nextTxStep = s.nextTxStep := by rw [hs1]; simp
  have hd1 : (timerT4Expired s).1.disReceived = s.disReceived := by rw [hs1]; simp
  have h2 := t4_IIQ_step (timerT4Expired s).1 hstate1 (by rw [hr1]; decide)
  have hs2 : (timerT4Expired (timerT4Expired s).1).1
      = setPhase { (timerT4Expired s).1 with
          retries := (timerT4Expired s).1.retries + 1 } T30Phase.D_TX := by rw [h2]
  have hstate2 : (timerT4Expired (timerT4Expired s).1).1.state
      = T30StateName.II_Q := by rw [hs2]; simp [hstate1]
  have hr2 : (timerT4Expired (timerT4Expired s).1).1.retries = 2 := by
    rw [hs2]; simp [hr1]
  have hnx2 : (timerT4Expired (timerT4Expired s).1).1.nextTxStep = s.nextTxStep := by
    rw [hs2]; simp [hnx1]
  have hd2 : (timerT4Expired (timerT4Expired s).1).1.disReceived = s.disReceived := by
    rw [hs2]; simp [hd1]
  have h3 := t4_IIQ_step (timerT4Expired (timerT4Expired s).1).1 hstate2
    (by rw [hr2]; decide)
  have hs3 : (timerT4Expired (timerT4Expired (timerT4Expired s).1).1).1
      = setPhase { (timerT4Expired (timerT4Expired s).1).1 with
          retries := (timerT4Expired (timerT4Expired s).1).1.retries + 1 }
          T30Phase.D_TX := by rw [h3]
  have hstate3 : (timerT4Expired (timerT4Expired (timerT4Expired s).1).1).1.state
      = T30StateName.II_Q := by rw [hs3]; simp [hstate2]
  have hr3 : (timerT4Expired (timerT4Expired (timerT4Expired s).1).1).1.retries
      = 3 := by rw [hs3]; simp [hr2]
  have hd3 : (timerT4Expired (timerT4Expired (timerT4Expired s).1).1).1.disReceived
      = s.disReceived := by rw [hs3]; simp [hd2]
  have h4 := t4_IIQ_exhaust (timerT4Expired (timerT4Expired (timerT4Expired s).1).1).1
    hstate3 (by rw [hr3]; decide)
  refine ⟨?_, hstate1, ?_, hstate2, ?_, hstate3, h4.1, h4.2.1, ?_⟩
  · rw [h1]
  · rw [h2, hnx1]; simp [dBit, hd1]
  · rw [h3, hnx2]; simp [dBit, hd2]
  · rw [h4.2.2]; simp [dBit, hd3]

/-- Witness for `C6_amended` at the concrete II_Q sender. -/
theorem C6_amended_witness :
    (timerT4Expired c6S).2 = [[0xFF, 0x13, c6S.nextTxStep ||| dBit c6S]] ∧
    (timerT4Expired (timerT4Expired (timerT4Expired
        (timerT4Expired c6S).1).1).1).1.currentStatus = T30_ERR_PHDDEADTX := by
  have h := C6_amended c6S rfl rfl
  exact ⟨h.1, h.2.2.2.2.2.2.1⟩

/-! ### Claim C7: idempotence of repeat_last_command -/

theorem and_mask_idem (x m : Nat) : (x &&& m) &&& m = x &&& m := by
  apply Nat.eq_of_testBit_eq
  intro i
  simp [Nat.testBit_and, Bool.and_assoc]

theorem or_mask_idem (x m : Nat) : (x ||| m) ||| m = x ||| m := by
  apply Nat.eq_of_testBit_eq
  intro i
  simp [Nat.testBit_or, Bool.or_assoc]

/-- A frame that is already in post-scan shape (zero above the break octet,
break octet stripped and non-zero - or nothing to find) is a fixed point of
the scan: same break index, no octet changed. -/
theorem pruneScanA_pointwise (n : Nat) :
    ∀ (h : Nat → Nat) (brk : Nat), 4 ≤ brk → brk ≤ n + 4 →
      (∀ j, brk < j → j ≤ n + 4 → h j = 0) →
      (brk = 4 ∨ (h brk &&& 0x7F = h brk ∧ h brk ≠ 0)) →
      (pruneScanA h n).2 = brk ∧ ∀ j, (pruneScanA h n).1 j = h j := by
  induction n with
  | zero =>
    intro h brk h4 hle _ _
    refine ⟨?_, fun j => rfl⟩
    show (4 : Nat) = brk
    omega
  | succ n ih =>
    intro h brk h4 hle hz hspec
    unfold pruneScanA
    simp only []
    by_cases hb : brk = n + 5
    · rcases hspec with hs | ⟨hstrip, hnz⟩
      · omega
      · rw [if_pos (by rw [Function.update_same, ← hb, hstrip]; exact hnz)]
        refine ⟨by simp [hb], fun j => ?_⟩
        show Function.update h (n + 5) (h (n + 5) &&& 0x7F) j = h j
        by_cases hj : j = n + 5
        · subst hj
          rw [Function.update_same, ← hb, hstrip]
        · rw [Function.update_noteq hj]
    · have hz5 : h (n + 5) = 0 := hz (n + 5) (by omega) (by omega)
      have hupd : Function.update h (n + 5) (h (n + 5) &&& 0x7F) = h := by
        funext j
        by_cases hj : j = n + 5
        · subst hj; rw [Function.update_same, hz5]; decide
        · rw [Function.update_noteq hj]
      rw [if_neg (by rw [Function.update_same, hz5]; decide), hupd]
      exact ih h brk h4 (by omega) (fun j hj1 hj2 => hz j hj1 (by omega)) hspec

/-- The octets of a pruned frame, at and above the break index. -/
theorem pruneFrame_above (f : Nat → Nat) :
    (∀ j, (pruneScanA f 14).2 < j → j ≤ 18 → (pruneFrame f).1 j = 0) ∧
    ((pruneScanA f 14).2 = 4 ∨
      (5 ≤ (pruneScanA f 14).2 ∧
        (pruneFrame f).1 (pruneScanA f 14).2
          = f (pruneScanA f 14).2 &&& 0x7F ∧
        (pruneFrame f).1 (pruneScanA f 14).2 ≠ 0)) := by
  constructor
  · intro j h1 h2
    unfold pruneFrame
    simp only []
    rw [if_neg (by omega)]
    exact pruneScanA_zero_above 14 f j h1 h2
  · rcases pruneScanA_brk_spec 14 f with h4 | ⟨h5, hv, hnz⟩
    · left; exact h4
    · right
      refine ⟨h5, ?_, ?_⟩ <;>
        (unfold pruneFrame; simp only []; rw [if_neg (by omega)])
      · exact hv
      · exact hnz

/-- Any frame agreeing with a pruned frame on octets 5..18 is a fixed point
of pruning: same length, every octet unchanged. -/
theorem pruneFrame_stable (f h : Nat → Nat)
    (hagree : ∀ j, 5 ≤ j → j ≤ 18 → h j = (pruneFrame f).1 j) :
    (pruneFrame h).2 = (pruneFrame f).2 ∧ ∀ j, (pruneFrame h).1 j = h j := by
  have hb4 : 4 ≤ (pruneScanA f 14).2 := by
    rcases pruneScanA_brk_spec 14 f with h4 | ⟨h5, _, _⟩ <;> omega
  have hble := pruneScanA_brk_le 14 f
  have habove := (pruneFrame_above f).1
  have hspec := (pruneFrame_above f).2
  have hsc := pruneScanA_pointwise 14 h (pruneScanA f 14).2 hb4 hble
    (fun j h1 h2 => by rw [hagree j (by omega) h2]; exact habove j h1 h2)
    (by
      rcases hspec with h4 | ⟨h5, hv, hnz⟩
      · left; exact h4
      · right
        have hagg : h (pruneScanA f 14).2 = (pruneFrame f).1 (pruneScanA f 14).2 :=
          hagree _ h5 hble
        refine ⟨?_, ?_⟩
        · rw [hagg, hv]
          exact and_mask_idem _ _
        · rw [hagg]
          exact hnz)
  constructor
  · unfold pruneFrame
    simp only []
    rw [hsc.1]
  · intro j
    unfold pruneFrame
    simp only []
    rw [hsc.1, hsc.2 j]
    by_cases hj : 5 ≤ j ∧ j < (pruneScanA f 14).2
    · rw [if_pos hj, hagree j hj.1 (by omega)]
      unfold pruneFrame
      simp only []
      rw [if_pos hj, or_mask_idem]
    · rw [if_neg hj]

theorem pruneScanA_low (n : Nat) :
    ∀ f j, j < 5 → (pruneScanA f n).1 j = f j := by
  induction n with
  | zero => intro f j _; rfl
  | succ n ih =>
    intro f j hj
    unfold pruneScanA
    simp only []
    by_cases h : Function.update f (n + 5) (f (n + 5) &&& 0x7F) (n + 5) ≠ 0
    · rw [if_pos h]
      exact Function.update_noteq (by omega) _ f
    · rw [if_neg h, ih _ j hj]
      exact Function.update_noteq (by omega) _ f

/-- Pruning never touches octets 0-4. -/
theorem pruneFrame_low (f : Nat → Nat) (j : Nat) (hj : j < 5) :
    (pruneFrame f).1 j = f j := by
  unfold pruneFrame
  simp only []
  rw [if_neg (by omega)]
  exact pruneScanA_low 14 f j hj

/-- The octet-4 edit of `set_dis_or_dtc`: bit 10 (receive capable) from
rx_file, then bit 9 (ready to poll) from tx_file. -/
def oct4Val (rx tx : Bool) (x : Nat) : Nat :=
  let y := if rx then x ||| (1 <<< 1) else x &&& 0xFD
  if tx then y ||| (1 <<< 0) else y &&& 0xFE

theorem oct4Val_idem (rx tx : Bool) (x : Nat) :
    oct4Val rx tx (oct4Val rx tx x) = oct4Val rx tx x := by
  apply Nat.eq_of_testBit_eq
  intro i
  cases rx <;> cases tx <;>
    simp only [oct4Val, Bool.false_eq_true, if_false, if_true, Nat.testBit_or,
      Nat.testBit_and] <;>
    (try generalize x.testBit i = a) <;>
    (try generalize Nat.testBit (1 <<< 1) i = b) <;>
    (try generalize Nat.testBit (1 <<< 0) i = c) <;>
    (try generalize Nat.testBit 0xFD i = d) <;>
    (try generalize Nat.testBit 0xFE i = e) <;>
    (try revert a) <;> (try revert b) <;> (try revert c) <;>
    (try revert d) <;> (try revert e) <;>
    decide

/-- `set_dis_or_dtc` pointwise: octet 2 is the DIS FCF with the response bit,
octet 4 gets the capability bits, everything else is unchanged. -/
theorem setDisOrDtc_frame (s : T30S) (j : Nat) :
    (setDisOrDtc s).disDtcFrame j =
      if j = 2 then T30_DIS ||| dBit s
      else if j = 4 then oct4Val s.rxFileSet s.txFileSet (s.disDtcFrame 4)
      else s.disDtcFrame j := by
  unfold setDisOrDtc oct4Val
  simp only []
  by_cases h4 : j = 4
  · subst h4
    rw [Function.update_same]
    simp only [if_neg (by norm_num : ¬(4 = 2))]
    rw [Function.update_same, Function.update_noteq (by norm_num : (4:Nat) ≠ 2)]
    simp
  · rw [Function.update_noteq h4, Function.update_noteq h4]
    by_cases h2 : j = 2
    · subst h2
      rw [Function.update_same]
      simp
    · rw [Function.update_noteq h2, if_neg h2, if_neg h4]

/-- `send_dcs_sequence` in closed form: state D, and the first frame of
(PWD) (SUB) (TSI) DCS depending on what is configured. -/
theorem sendDcsSequence_eq (w : T30S) :
    sendDcsSequence w =
      if w.localPassword ≠ [] then
        ({ setState (pruneDcs w) T30StateName.D with step := 0 },
         [msg20Frame w T30_PWD w.localPassword])
      else if w.localSubAddress ≠ [] then
        ({ setState (pruneDcs w) T30StateName.D with step := 1 },
         [msg20Frame w T30_SUB w.localSubAddress])
      else if w.localIdent ≠ [] then
        ({ setState (pruneDcs w) T30StateName.D with step := 2 },
         [msg20Frame w T30_TSI w.localIdent])
      else
        ({ setState (pruneDcs w) T30StateName.D with step := 3 },
         [(List.range (pruneFrame w.dcsFrame).2).map (pruneFrame w.dcsFrame).1]) := by
  unfold sendDcsSequence sendPwFrame sendSubFrame sendIdentFrame
  simp only []
  split_ifs <;> simp_all [msg20Frame, dBit, setState, pruneDcs]

/-- `send_dis_or_dtc_sequence` in closed form. -/
theorem sendDisOrDtcSequence_eq (w : T30S) :
    sendDisOrDtcSequence w =
      if w.localNsf ≠ [] then
        ({ setState (pruneDisDtc w) T30StateName.R with step := 0 },
         [[0xFF, 0x03, T30_NSF ||| dBit w] ++ w.localNsf])
      else if w.localIdent ≠ [] then
        ({ setState (pruneDisDtc w) T30StateName.R with step := 1 },
         [msg20Frame w T30_CSI w.localIdent])
      else
        ({ setDisOrDtc (setState (pruneDisDtc w) T30StateName.R) with step := 2 },
         [(List.range (pruneFrame w.disDtcFrame).2).map
            (setDisOrDtc (setState (pruneDisDtc w) T30StateName.R)).disDtcFrame]) := by
  unfold sendDisOrDtcSequence sendNsfFrame sendIdentFrame
  simp only []
  split_ifs <;> simp_all [msg20Frame, dBit, setState, pruneDisDtc, setDisOrDtc]

/-- Re-running `send_dcs_sequence` on a session whose DCS frame is already
pruned (and whose identity configuration is unchanged) emits the same frame. -/
theorem sendDcsSequence_congr (w v : T30S)
    (hpw : v.localPassword = w.localPassword)
    (hsub : v.localSubAddress = w.localSubAddress)
    (hid : v.localIdent = w.localIdent)
    (hd : v.disReceived = w.disReceived)
    (hfr : v.dcsFrame = (pruneFrame w.dcsFrame).1) :
    (sendDcsSequence v).2 = (sendDcsSequence w).2 := by
  have hstab := pruneFrame_stable w.dcsFrame v.dcsFrame (fun j _ _ => by rw [hfr])
  have hfun : (pruneFrame v.dcsFrame).1 = (pruneFrame w.dcsFrame).1 :=
    funext fun j => by rw [hstab.2 j, hfr]
  rw [sendDcsSequence_eq w, sendDcsSequence_eq v, hpw, hsub, hid]
  split_ifs <;> simp [msg20Frame, dBit, hd, hstab.1, hfun]

/-- The two conjucts of C7 for a session about to re-send the DCS sequence:
the state after one repeat is D, and a second repeat emits identical bytes. -/
theorem sendDcs_then (w : T30S) :
    (sendDcsSequence (setPhase (sendDcsSequence w).1 T30Phase.B_TX)).2
        = (sendDcsSequence w).2 ∧
    (sendDcsSequence w).1.state = T30StateName.D := by
  constructor
  · apply sendDcsSequence_congr
    · rw [setPhase_localPassword, sendDcsSequence_eq w]
      split_ifs <;> simp [setState, pruneDcs]
    · rw [setPhase_localSubAddress, sendDcsSequence_eq w]
      split_ifs <;> simp [setState, pruneDcs]
    · rw [setPhase_localIdent, sendDcsSequence_eq w]
      split_ifs <;> simp [setState, pruneDcs]
    · rw [setPhase_disReceived, sendDcsSequence_eq w]
      split_ifs <;> simp [setState, pruneDcs]
    · rw [setPhase_dcsFrame, sendDcsSequence_eq w]
      split_ifs <;> simp [setState, pruneDcs]
  · rw [sendDcsSequence_eq w]
    split_ifs <;> simp [setState]

/-- Re-running `send_dis_or_dtc_sequence` on a session whose DIS/DTC frame was
already pruned and capability-edited (and whose configuration is unchanged)
emits the same frame: pruning is a fixed point and the octet-2/octet-4 edits
are idempotent. -/
theorem sendDisOrDtcSequence_congr (w v : T30S)
    (hnsf : v.localNsf = w.localNsf)
    (hid : v.localIdent = w.localIdent)
    (hd : v.disReceived = w.disReceived)
    (hrx : v.rxFileSet = w.rxFileSet)
    (htx : v.txFileSet = w.txFileSet)
    (hfr : w.localNsf = [] → w.localIdent = [] →
        v.disDtcFrame
          = (setDisOrDtc (setState (pruneDisDtc w) T30StateName.R)).disDtcFrame) :
    (sendDisOrDtcSequence v).2 = (sendDisOrDtcSequence w).2 := by
  have hchar : ∀ u : T30S, ∀ j,
      (setDisOrDtc (setState (pruneDisDtc u) T30StateName.R)).disDtcFrame j =
        if j = 2 then T30_DIS ||| dBit u
        else if j = 4 then
          oct4Val u.rxFileSet u.txFileSet ((pruneFrame u.disDtcFrame).1 4)
        else (pruneFrame u.disDtcFrame).1 j := by
    intro u j
    rw [setDisOrDtc_frame]
    rfl
  rw [sendDisOrDtcSequence_eq w, sendDisOrDtcSequence_eq v, hnsf, hid]
  split_ifs with h1 h2
  · simp [dBit, hd]
  · simp [msg20Frame, dBit, hd]
  · have hn : w.localNsf = [] := not_not.mp h1
    have hi : w.localIdent = [] := not_not.mp h2
    have hfr' := hfr hn hi
    have hagree : ∀ j, 5 ≤ j → j ≤ 18 →
        (setDisOrDtc (setState (pruneDisDtc w) T30StateName.R)).disDtcFrame j
          = (pruneFrame w.disDtcFrame).1 j := by
      intro j h5 _
      rw [hchar w j, if_neg (by omega), if_neg (by omega)]
    have hstab := pruneFrame_stable w.disDtcFrame _ hagree
    have hvP : ∀ j, (pruneFrame v.disDtcFrame).1 j
        = (setDisOrDtc (setState (pruneDisDtc w) T30StateName.R)).disDtcFrame j := by
      intro j
      rw [hfr']
      exact hstab.2 j
    have hlen : (pruneFrame v.disDtcFrame).2 = (pruneFrame w.disDtcFrame).2 := by
      rw [hfr']
      exact hstab.1
    have hfun : (setDisOrDtc (setState (pruneDisDtc v) T30StateName.R)).disDtcFrame
        = (setDisOrDtc (setState (pruneDisDtc w) T30StateName.R)).disDtcFrame := by
      funext j
      rw [hchar v j, hchar w j]
      by_cases h2' : j = 2
      · rw [if_pos h2', if_pos h2']
        simp [dBit, hd]
      · by_cases h4' : j = 4
        · rw [if_neg h2', if_neg h2', if_pos h4', if_pos h4', hrx, htx, hvP 4,
            hchar w 4, if_neg (by decide), if_pos rfl, oct4Val_idem]
        · rw [if_neg h2', if_neg h2', if_neg h4', if_neg h4', hvP j,
            hchar w j, if_neg h2', if_neg h4']
    rw [hlen, hfun]

/-- `send_dis_or_dtc_sequence` leaves the identity configuration alone and
always lands in state R. -/
theorem sendDis_pres (w : T30S) :
    (sendDisOrDtcSequence w).1.localNsf = w.localNsf ∧
    (sendDisOrDtcSequence w).1.localIdent = w.localIdent ∧
    (sendDisOrDtcSequence w).1.rxFileSet = w.rxFileSet ∧
    (sendDisOrDtcSequence w).1.txFileSet = w.txFileSet ∧
    (sendDisOrDtcSequence w).1.state = T30StateName.R := by
  rw [sendDisOrDtcSequence_eq w]
  split_ifs <;> simp [setState, pruneDisDtc, setDisOrDtc]

/-- When neither an NSF nor an ident is configured, the DIS sequence leaves
behind the pruned, capability-edited frame. -/
theorem sendDis_frame_final (w : T30S) (hn : w.localNsf = [])
    (hi : w.localIdent = []) :
    (sendDisOrDtcSequence w).1.disDtcFrame
      = (setDisOrDtc (setState (pruneDisDtc w) T30StateName.R)).disDtcFrame := by
  rw [sendDisOrDtcSequence_eq w, if_neg (by simp [hn]), if_neg (by simp [hi])]

/-- Repeating the DIS sequence from its own output emits identical frames. -/
theorem sendDis_repeat (w : T30S) (hw : w.disReceived = false) :
    (sendDisOrDtcSequence (setPhase
        { (sendDisOrDtcSequence w).1 with disReceived := false } T30Phase.B_TX)).2
      = (sendDisOrDtcSequence w).2 := by
  apply sendDisOrDtcSequence_congr
  · rw [setPhase_localNsf]
    exact (sendDis_pres w).1
  · rw [setPhase_localIdent]
    exact (sendDis_pres w).2.1
  · rw [setPhase_disReceived]
    exact hw.symm
  · rw [setPhase_rxFileSet]
    exact (sendDis_pres w).2.2.1
  · rw [setPhase_txFileSet]
    exact (sendDis_pres w).2.2.2.1
  · intro hn hi
    rw [setPhase_disDtcFrame]
    exact sendDis_frame_final w hn hi

/-! ### Claim C7: idempotence of `repeat_last_command` -/

/-- The thirteen states `repeat_last_command` (t30.c:4699) handles explicitly. -/
def c7States : List T30StateName :=
  [T30StateName.R, T30StateName.III_Q_MCF, T30StateName.III_Q_RTP,
   T30StateName.III_Q_RTN, T30StateName.II_Q, T30StateName.IV_PPS_NULL,
   T30StateName.IV_PPS_Q, T30StateName.IV_PPS_RNR, T30StateName.IV_EOR_RNR,
   T30StateName.D, T30StateName.F_FTT, T30StateName.F_CFR,
   T30StateName.D_POST_TCF]

/-- Claim C7 as stated at a session `s`: repeating the last command twice in a
row re-transmits byte-for-byte identical frames, and one repeat leaves the
session state unchanged. -/
def claimC7At (s : T30S) : Prop :=
  (repeatLastCommand (repeatLastCommand s).1).2 = (repeatLastCommand s).2 ∧
  (repeatLastCommand s).1.state = s.state

/-- C7: the claim fails in state D_POST_TCF, one of the thirteen enumerated
retry states: `repeat_last_command` re-sends the DCS sequence through
`send_dcs_sequence`, whose `set_state` moves the session to state D, so the
session state does not stay D_POST_TCF. -/
theorem C7_counterexample :
    ({ s0 with state := T30StateName.D_POST_TCF } : T30S).state ∈ c7States ∧
    ¬ claimC7At { s0 with state := T30StateName.D_POST_TCF } := by
  constructor
  · decide
  · intro h
    exact absurd h.2 (by decide)

/-- C7 (amended): from any of the thirteen explicitly enumerated retry states,
repeating the last command twice in a row re-transmits byte-for-byte identical
frames, and one repeat leaves the session state unchanged - except in
D_POST_TCF, where re-sending the DCS sequence moves the session to state D
(the frames are still identical). -/
theorem C7_amended (s : T30S) (hs : s.state ∈ c7States) :
    (repeatLastCommand (repeatLastCommand s).1).2 = (repeatLastCommand s).2 ∧
    (repeatLastCommand s).1.state
      = (if s.state = T30StateName.D_POST_TCF then T30StateName.D
         else s.state) := by
  simp only [c7States, List.mem_cons, List.not_mem_nil, or_false] at hs
  rcases hs with h | h | h | h | h | h | h | h | h | h | h | h | h
  · -- R: re-send the DIS/DTC sequence
    have e1 : repeatLastCommand s
        = sendDisOrDtcSequence
            (setPhase { s with disReceived := false } T30Phase.B_TX) := by
      unfold repeatLastCommand
      simp only [h]
    have hs1 := (sendDis_pres
      (setPhase { s with disReceived := false } T30Phase.B_TX)).2.2.2.2
    have e2 : repeatLastCommand (sendDisOrDtcSequence
          (setPhase { s with disReceived := false } T30Phase.B_TX)).1
        = sendDisOrDtcSequence (setPhase
            { (sendDisOrDtcSequence
                (setPhase { s with disReceived := false } T30Phase.B_TX)).1
              with disReceived := false } T30Phase.B_TX) := by
      unfold repeatLastCommand
      simp only [hs1]
    rw [e1, e2]
    exact ⟨sendDis_repeat _ (by simp), by rw [hs1, h]; simp⟩
  · -- III_Q_MCF
    have e1 : repeatLastCommand s
        = (setPhase s T30Phase.D_TX, [simpleFrame s T30_MCF]) := by
      unfold repeatLastCommand
      simp only [h]
      simp [simpleFrame, dBit]
    have e2 : repeatLastCommand (setPhase s T30Phase.D_TX)
        = (setPhase (setPhase s T30Phase.D_TX) T30Phase.D_TX,
           [simpleFrame s T30_MCF]) := by
      unfold repeatLastCommand
      simp only [setPhase_state, h]
      simp [simpleFrame, dBit]
    rw [e1]
    simp only []
    rw [e2]
    exact ⟨rfl, by simp [h]⟩
  · -- III_Q_RTP
    have e1 : repeatLastCommand s
        = (setPhase s T30Phase.D_TX, [simpleFrame s T30_RTP]) := by
      unfold repeatLastCommand
      simp only [h]
      simp [simpleFrame, dBit]
    have e2 : repeatLastCommand (setPhase s T30Phase.D_TX)
        = (setPhase (setPhase s T30Phase.D_TX) T30Phase.D_TX,
           [simpleFrame s T30_RTP]) := by
      unfold repeatLastCommand
      simp only [setPhase_state, h]
      simp [simpleFrame, dBit]
    rw [e1]
    simp only []
    rw [e2]
    exact ⟨rfl, by simp [h]⟩
  · -- III_Q_RTN
    have e1 : repeatLastCommand s
        = (setPhase s T30Phase.D_TX, [simpleFrame s T30_RTN]) := by
      unfold repeatLastCommand
      simp only [h]
      simp [simpleFrame, dBit]
    have e2 : repeatLastCommand (setPhase s T30Phase.D_TX)
        = (setPhase (setPhase s T30Phase.D_TX) T30Phase.D_TX,
           [simpleFrame s T30_RTN]) := by
      unfold repeatLastCommand
      simp only [setPhase_state, h]
      simp [simpleFrame, dBit]
    rw [e1]
    simp only []
    rw [e2]
    exact ⟨rfl, by simp [h]⟩
  · -- II_Q: re-send the post-page command
    have e1 : repeatLastCommand s
        = (setPhase s T30Phase.D_TX, [simpleFrame s s.nextTxStep]) := by
      unfold repeatLastCommand
      simp only [h]
      simp [simpleFrame, dBit]
    have e2 : repeatLastCommand (setPhase s T30Phase.D_TX)
        = (setPhase (setPhase s T30Phase.D_TX) T30Phase.D_TX,
           [simpleFrame s s.nextTxStep]) := by
      unfold repeatLastCommand
      simp only [setPhase_state, h]
      simp [simpleFrame, dBit]
    rw [e1]
    simp only []
    rw [e2]
    exact ⟨rfl, by simp [h]⟩
  · -- IV_PPS_NULL: re-send the PPS
    have e1 : repeatLastCommand s
        = (setPhase s T30Phase.D_TX,
           [[0xFF, 0x13, T30_PPS ||| dBit s,
             (if s.ecmAtPageEnd then s.nextTxStep ||| dBit s else T30_NULL) % 256,
             s.ecmPage % 256, s.ecmBlock % 256,
             (if s.ecmFramesThisBurst = 0 then 0
              else s.ecmFramesThisBurst - 1) % 256]]) := by
      unfold repeatLastCommand
      simp only [h]
      simp [sendPPSFrame, dBit]
    have e2 : repeatLastCommand (setPhase s T30Phase.D_TX)
        = (setPhase (setPhase s T30Phase.D_TX) T30Phase.D_TX,
           [[0xFF, 0x13, T30_PPS ||| dBit s,
             (if s.ecmAtPageEnd then s.nextTxStep ||| dBit s else T30_NULL) % 256,
             s.ecmPage % 256, s.ecmBlock % 256,
             (if s.ecmFramesThisBurst = 0 then 0
              else s.ecmFramesThisBurst - 1) % 256]]) := by
      unfold repeatLastCommand
      simp only [setPhase_state, h]
      simp [sendPPSFrame, dBit]
    rw [e1]
    simp only []
    rw [e2]
    exact ⟨rfl, by simp [h]⟩
  · -- IV_PPS_Q: re-send the PPS
    have e1 : repeatLastCommand s
        = (setPhase s T30Phase.D_TX,
           [[0xFF, 0x13, T30_PPS ||| dBit s,
             (if s.ecmAtPageEnd then s.nextTxStep ||| dBit s else T30_NULL) % 256,
             s.ecmPage % 256, s.ecmBlock % 256,
             (if s.ecmFramesThisBurst = 0 then 0
              else s.ecmFramesThisBurst - 1) % 256]]) := by
      unfold repeatLastCommand
      simp only [h]
      simp [sendPPSFrame, dBit]
    have e2 : repeatLastCommand (setPhase s T30Phase.D_TX)
        = (setPhase (setPhase s T30Phase.D_TX) T30Phase.D_TX,
           [[0xFF, 0x13, T30_PPS ||| dBit s,
             (if s.ecmAtPageEnd then s.nextTxStep ||| dBit s else T30_NULL) % 256,
             s.ecmPage % 256, s.ecmBlock % 256,
             (if s.ecmFramesThisBurst = 0 then 0
              else s.ecmFramesThisBurst - 1) % 256]]) := by
      unfold repeatLastCommand
      simp only [setPhase_state, h]
      simp [sendPPSFrame, dBit]
    rw [e1]
    simp only []
    rw [e2]
    exact ⟨rfl, by simp [h]⟩
  · -- IV_PPS_RNR
    have e1 : repeatLastCommand s
        = (setPhase s T30Phase.D_TX, [simpleFrame s T30_RNR]) := by
      unfold repeatLastCommand
      simp only [h]
      simp [simpleFrame, dBit]
    have e2 : repeatLastCommand (setPhase s T30Phase.D_TX)
        = (setPhase (setPhase s T30Phase.D_TX) T30Phase.D_TX,
           [simpleFrame s T30_RNR]) := by
      unfold repeatLastCommand
      simp only [setPhase_state, h]
      simp [simpleFrame, dBit]
    rw [e1]
    simp only []
    rw [e2]
    exact ⟨rfl, by simp [h]⟩
  · -- IV_EOR_RNR
    have e1 : repeatLastCommand s
        = (setPhase s T30Phase.D_TX, [simpleFrame s T30_RNR]) := by
      unfold repeatLastCommand
      simp only [h]
      simp [simpleFrame, dBit]
    have e2 : repeatLastCommand (setPhase s T30Phase.D_TX)
        = (setPhase (setPhase s T30Phase.D_TX) T30Phase.D_TX,
           [simpleFrame s T30_RNR]) := by
      unfold repeatLastCommand
      simp only [setPhase_state, h]
      simp [simpleFrame, dBit]
    rw [e1]
    simp only []
    rw [e2]
    exact ⟨rfl, by simp [h]⟩
  · -- D: re-send the DCS sequence
    have e1 : repeatLastCommand s
        = sendDcsSequence (setPhase s T30Phase.B_TX) := by
      unfold repeatLastCommand
      simp only [h]
    have hsD := (sendDcs_then (setPhase s T30Phase.B_TX)).2
    have e2 : repeatLastCommand (sendDcsSequence (setPhase s T30Phase.B_TX)).1
        = sendDcsSequence (setPhase
            (sendDcsSequence (setPhase s T30Phase.B_TX)).1 T30Phase.B_TX) := by
      unfold repeatLastCommand
      simp only [hsD]
    rw [e1, e2]
    exact ⟨(sendDcs_then _).1, by rw [hsD, h]; simp⟩
  · -- F_FTT
    have e1 : repeatLastCommand s
        = (setPhase s T30Phase.B_TX, [simpleFrame s T30_FTT]) := by
      unfold repeatLastCommand
      simp only [h]
      simp [simpleFrame, dBit]
    have e2 : repeatLastCommand (setPhase s T30Phase.B_TX)
        = (setPhase (setPhase s T30Phase.B_TX) T30Phase.B_TX,
           [simpleFrame s T30_FTT]) := by
      unfold repeatLastCommand
      simp only [setPhase_state, h]
      simp [simpleFrame, dBit]
    rw [e1]
    simp only []
    rw [e2]
    exact ⟨rfl, by simp [h]⟩
  · -- F_CFR
    have e1 : repeatLastCommand s
        = (setPhase s T30Phase.B_TX, [simpleFrame s T30_CFR]) := by
      unfold repeatLastCommand
      simp only [h]
      simp [simpleFrame, dBit]
    have e2 : repeatLastCommand (setPhase s T30Phase.B_TX)
        = (setPhase (setPhase s T30Phase.B_TX) T30Phase.B_TX,
           [simpleFrame s T30_CFR]) := by
      unfold repeatLastCommand
      simp only [setPhase_state, h]
      simp [simpleFrame, dBit]
    rw [e1]
    simp only []
    rw [e2]
    exact ⟨rfl, by simp [h]⟩
  · -- D_POST_TCF: re-send the DCS sequence with short training cleared
    have e1 : repeatLastCommand s
        = sendDcsSequence
            (setPhase { s with shortTrain := false } T30Phase.B_TX) := by
      unfold repeatLastCommand
      simp only [h]
    have hsD := (sendDcs_then
      (setPhase { s with shortTrain := false } T30Phase.B_TX)).2
    have e2 : repeatLastCommand (sendDcsSequence
          (setPhase { s with shortTrain := false } T30Phase.B_TX)).1
        = sendDcsSequence (setPhase
            (sendDcsSequence
              (setPhase { s with shortTrain := false } T30Phase.B_TX)).1
            T30Phase.B_TX) := by
      unfold repeatLastCommand
      simp only [hsD]
    rw [e1, e2]
    exact ⟨(sendDcs_then _).1, by rw [hsD, h]; simp⟩

/-- C7 (amended) at a concrete session in state F_CFR: the hypothesis (the
state is one of the thirteen enumerated retry states) holds and the repeat is
idempotent. -/
theorem C7_amended_witness :
    ({ s0 with state := T30StateName.F_CFR } : T30S).state ∈ c7States ∧
    ((repeatLastCommand
        (repeatLastCommand ({ s0 with state := T30StateName.F_CFR } : T30S)).1).2
        = (repeatLastCommand ({ s0 with state := T30StateName.F_CFR } : T30S)).2 ∧
     (repeatLastCommand ({ s0 with state := T30StateName.F_CFR } : T30S)).1.state
        = (if ({ s0 with state := T30StateName.F_CFR } : T30S).state
              = T30StateName.D_POST_TCF
           then T30StateName.D
           else ({ s0 with state := T30StateName.F_CFR } : T30S).state)) :=
  ⟨by decide, C7_amended _ (by decide)⟩

/-! ### Claim C8: the Bell MF receiver's block-boundary decision
(bell_r2_mf.c:519-631).  The float energies produced by the Goertzel filters
are modelled as exact rationals; BELL_MF_THRESHOLD = 1.6e9,
BELL_MF_TWIST = 4.0 and BELL_MF_RELATIVE_PEAK = 12.6 (bell_r2_mf.c:199-201)
likewise. -/

def BELL_MF_THRESHOLD : ℚ := 1600000000

def BELL_MF_TWIST : ℚ := 4

def BELL_MF_RELATIVE_PEAK : ℚ := 63 / 5

/-- MAX_BELL_MF_DIGITS comes from the bell_r2_mf header, which is not under
src/; the claim does not depend on its value. -/
def MAX_BELL_MF_DIGITS : Nat := 128

/-- bell_mf_positions (bell_r2_mf.c:224): the digit characters, as character
codes, laid out at index best*5 + second_best - 1 once the two bins are in
ascending order. -/
def bellMfPositions : List Nat :=
  [49, 50, 52, 55, 67, 45, 51, 53, 56, 65, 45, 45, 54, 57, 42, 45, 45, 45,
   48, 66, 45, 45, 45, 45, 35]

/-- The best/second-best scan over the six energies (bell_r2_mf.c:530-553):
initialise from bins 0 and 1, then let each of bins 2-5 displace the best
(shifting it to second best) on ≥, or displace the second best alone on ≥. -/
def bellScan (e : Nat → ℚ) : Nat × Nat :=
  [2, 3, 4, 5].foldl
    (fun bs i =>
      if e i ≥ e bs.1 then (i, bs.1)
      else if e i ≥ e bs.2 then (bs.1, i)
      else bs)
    (if e 0 > e 1 then (0, 1) else (1, 0))

/-- The hit classification at a block boundary (bell_r2_mf.c:554-578): the
basic level and twist tests, then the relative-peak loop which knocks the
provisional hit (the character X, code 88) back to 0 if any other bin is
within 11dB of the second best. -/
def bellHitDetect (e : Nat → ℚ) : Nat :=
  let b := (bellScan e).1
  let sb := (bellScan e).2
  if e b ≥ BELL_MF_THRESHOLD ∧ e sb ≥ BELL_MF_THRESHOLD ∧
     e b < e sb * BELL_MF_TWIST ∧ e b * BELL_MF_TWIST > e sb then
    [0, 1, 2, 3, 4, 5].foldl
      (fun h i =>
        if i ≠ b ∧ i ≠ sb ∧ e i * BELL_MF_RELATIVE_PEAK ≥ e sb then 0 else h)
      88
  else 0

/-- The digit character a block yields (bell_r2_mf.c:581-588): on a hit, the
two bins are put in ascending order and looked up in bell_mf_positions;
otherwise 0. -/
def bellBlockHit (e : Nat → ℚ) : Nat :=
  if bellHitDetect e ≠ 0 then
    bellMfPositions.getD
      (min (bellScan e).1 (bellScan e).2 * 5
        + max (bellScan e).1 (bellScan e).2 - 1) 0
  else 0

/-- The hit-history slice of bell_mf_rx_state_t. -/
structure BellSt where
  hits0 : Nat
  hits1 : Nat
  hits2 : Nat
  hits3 : Nat
  hits4 : Nat
  currentDigits : Nat
  digits : List Nat
  lostDigits : Nat

/-- The end-of-block bookkeeping (bell_r2_mf.c:579-625): the history test
(the outer if on the hit being non-zero is folded into the conjunction), the
append guarded by MAX_BELL_MF_DIGITS, and the five-deep history shift. -/
def bellBlockBoundary (st : BellSt) (e : Nat → ℚ) : BellSt :=
  let hit := bellBlockHit e
  let st' :=
    if hit ≠ 0 ∧ hit = st.hits4 ∧ hit = st.hits3 ∧
       ((hit ≠ 42 ∧ hit ≠ st.hits2 ∧ hit ≠ st.hits1) ∨
        (hit = 42 ∧ hit = st.hits2 ∧ hit ≠ st.hits1 ∧ hit ≠ st.hits0)) then
      if st.currentDigits < MAX_BELL_MF_DIGITS then
        { st with digits := st.digits ++ [hit],
                  currentDigits := st.currentDigits + 1 }
      else { st with lostDigits := st.lostDigits + 1 }
    else st
  { st' with hits0 := st.hits1, hits1 := st.hits2, hits2 := st.hits3,
             hits3 := st.hits4, hits4 := hit }

theorem bellPeakFold (e : Nat → ℚ) (b sb : Nat) :
    ∀ (l : List Nat) (h0 : Nat),
      (l.foldl
        (fun h i =>
          if i ≠ b ∧ i ≠ sb ∧ e i * BELL_MF_RELATIVE_PEAK ≥ e sb then 0 else h)
        h0) ≠ 0
      ↔ (h0 ≠ 0 ∧ ∀ i ∈ l, i ≠ b → i ≠ sb → e i * BELL_MF_RELATIVE_PEAK < e sb) := by
  intro l
  induction l with
  | nil => intro h0; simp
  | cons a t ih =>
    intro h0
    simp only [List.foldl_cons]
    by_cases hc : a ≠ b ∧ a ≠ sb ∧ e a * BELL_MF_RELATIVE_PEAK ≥ e sb
    · rw [if_pos hc, ih 0]
      constructor
      · intro h
        exact absurd rfl h.1
      · intro h
        exact absurd (h.2 a (by simp) hc.1 hc.2.1) (not_lt.mpr hc.2.2)
    · rw [if_neg hc, ih h0]
      push_neg at hc
      constructor
      · intro h
        refine ⟨h.1, ?_⟩
        intro i hi h1 h2
        rcases List.mem_cons.mp hi with rfl | hit
        · exact lt_of_not_le (fun hle => absurd hle (not_le.mpr (hc h1 h2)))
        · exact h.2 i hit h1 h2
      · intro h
        exact ⟨h.1, fun i hi h1 h2 => h.2 i (List.mem_cons_of_mem a hi) h1 h2⟩

/-- C8: at a 120-sample block boundary the Bell MF receiver registers a hit
iff the best and second-best energies reach 1.6e9, their ratio passes both
twist tests against 4.0, and every other bin is more than a factor 12.6 below
the second best; and a digit is appended to the output only when the hit
equals the results of the two most recent blocks and differs from the two
blocks before them, except that KP (the character with code 42) must equal
the three most recent blocks and differ from the two blocks before those. -/
theorem C8_theorem (e : Nat → ℚ) (st : BellSt) :
    (bellHitDetect e ≠ 0 ↔
      (e (bellScan e).1 ≥ BELL_MF_THRESHOLD ∧
       e (bellScan e).2 ≥ BELL_MF_THRESHOLD ∧
       e (bellScan e).1 < e (bellScan e).2 * BELL_MF_TWIST ∧
       e (bellScan e).1 * BELL_MF_TWIST > e (bellScan e).2 ∧
       ∀ i, i < 6 → i ≠ (bellScan e).1 → i ≠ (bellScan e).2 →
         e i * BELL_MF_RELATIVE_PEAK < e (bellScan e).2)) ∧
    ((bellBlockBoundary st e).digits ≠ st.digits →
      bellBlockHit e = st.hits4 ∧ bellBlockHit e = st.hits3 ∧
      ((bellBlockHit e ≠ 42 ∧ bellBlockHit e ≠ st.hits2 ∧
        bellBlockHit e ≠ st.hits1) ∨
       (bellBlockHit e = 42 ∧ bellBlockHit e = st.hits2 ∧
        bellBlockHit e ≠ st.hits1 ∧ bellBlockHit e ≠ st.hits0))) := by
  constructor
  · unfold bellHitDetect
    simp only []
    by_cases hbasic : e (bellScan e).1 ≥ BELL_MF_THRESHOLD ∧
        e (bellScan e).2 ≥ BELL_MF_THRESHOLD ∧
        e (bellScan e).1 < e (bellScan e).2 * BELL_MF_TWIST ∧
        e (bellScan e).1 * BELL_MF_TWIST > e (bellScan e).2
    · rw [if_pos hbasic, bellPeakFold e (bellScan e).1 (bellScan e).2]
      constructor
      · intro h
        refine ⟨hbasic.1, hbasic.2.1, hbasic.2.2.1, hbasic.2.2.2, ?_⟩
        intro i hi h1 h2
        have hmem : i ∈ [0, 1, 2, 3, 4, 5] := by
          interval_cases i <;> simp
        exact h.2 i hmem h1 h2
      · intro h
        refine ⟨by norm_num, ?_⟩
        intro i hi h1 h2
        have hlt : i < 6 := by
          simp only [List.mem_cons, List.not_mem_nil, or_false] at hi
          omega
        exact h.2.2.2.2 i hlt h1 h2
    · rw [if_neg hbasic]
      constructor
      · intro h
        exact absurd rfl h
      · intro h
        exact absurd ⟨h.1, h.2.1, h.2.2.1, h.2.2.2.1⟩ hbasic
  · intro happend
    by_cases hcond : bellBlockHit e ≠ 0 ∧ bellBlockHit e = st.hits4 ∧
        bellBlockHit e = st.hits3 ∧
        ((bellBlockHit e ≠ 42 ∧ bellBlockHit e ≠ st.hits2 ∧
          bellBlockHit e ≠ st.hits1) ∨
         (bellBlockHit e = 42 ∧ bellBlockHit e = st.hits2 ∧
          bellBlockHit e ≠ st.hits1 ∧ bellBlockHit e ≠ st.hits0))
    · exact ⟨hcond.2.1, hcond.2.2.1, hcond.2.2.2⟩
    · exfalso
      apply happend
      unfold bellBlockBoundary
      simp only []
      rw [if_neg hcond]

/-- A block with bin 0 at 2.0e9 and bin 1 at 1.9e9, all other bins silent. -/
def c8E : Nat → ℚ := fun i =>
  if i = 0 then 2000000000 else if i = 1 then 1900000000 else 0

/-- A history of two silent blocks followed by two blocks of digit 1
(code 49), no digits stored yet. -/
def c8St : BellSt :=
  { hits0 := 0, hits1 := 0, hits2 := 0, hits3 := 49, hits4 := 49,
    currentDigits := 0, digits := [], lostDigits := 0 }

/-- Witness for `C8_theorem`: the concrete block passes all five hit tests,
so a hit registers, and with the matching history the digit 1 is appended. -/
theorem C8_witness :
    bellHitDetect c8E ≠ 0 ∧ (bellBlockBoundary c8St c8E).digits = [49] := by
  have hscan : bellScan c8E = (0, 1) := by decide
  constructor
  · apply (C8_theorem c8E c8St).1.mpr
    rw [hscan]
    refine ⟨by norm_num [c8E, BELL_MF_THRESHOLD],
      by norm_num [c8E, BELL_MF_THRESHOLD],
      by norm_num [c8E, BELL_MF_TWIST],
      by norm_num [c8E, BELL_MF_TWIST], ?_⟩
    intro i hi h1 h2
    simp only [] at h1 h2
    interval_cases i <;> simp_all [c8E, BELL_MF_RELATIVE_PEAK]
  · have hhd : bellHitDetect c8E = 88 := by
      unfold bellHitDetect
      rw [hscan]
      simp only []
      rw [if_pos (by norm_num [c8E, BELL_MF_THRESHOLD, BELL_MF_TWIST])]
      norm_num [c8E, BELL_MF_RELATIVE_PEAK]
    have hbh : bellBlockHit c8E = 49 := by
      unfold bellBlockHit
      rw [hscan, hhd]
      norm_num [bellMfPositions]
    unfold bellBlockBoundary
    simp only []
    rw [hbh]
    norm_num [c8St, MAX_BELL_MF_DIGITS]

/-! ### Claim C10: frame validation in t30_hdlc_accept (t30.c:4218-4252) -/

/-- The non-negative-length path of `t30_hdlc_accept` (t30.c:4218-4252), up
to the hand-off into `hdlc_accept_control_msg`: a bad FCS yields a CRP when
enabled (and nothing else); a good FCS first cancels the shared T2/T4 timer,
then discards the frame if it is shorter than 3 octets or its address/control
header is not 0xFF followed by 0x03 or 0x13.  The returned flag records
whether the frame was handed to `hdlc_accept_control_msg` (the per-state
dispatch); the phase switch before the call only logs. -/
def t30HdlcAccept (s : T30S) (msg : List Nat) (ok : Bool) :
    T30S × List Frame × Bool :=
  if ok = false then
    if s.crpEnabled then (s, [simpleFrame s T30_CRP], false)
    else (s, [], false)
  else
    let s := { s with timerT2T4 := 0 }
    if msg.length < 3 then (s, [], false)
    else if msg.getD 0 0 ≠ 0xFF ∨ ¬(msg.getD 1 0 = 0x03 ∨ msg.getD 1 0 = 0x13) then
      (s, [], false)
    else (s, [], true)

/-- C10: a received HDLC frame is dispatched to the per-state handler only if
its FCS was good, its length is at least 3 octets, its first octet is 0xFF
and its second octet is 0x03 or 0x13; on a good FCS the shared T2/T4 timer is
cancelled before the checks are made, and every good-FCS frame failing the
checks is discarded without emitting any frame and without changing the
session state or phase. -/
theorem C10_theorem (s : T30S) (msg : List Nat) (ok : Bool) :
    ((t30HdlcAccept s msg ok).2.2 = true →
      ok = true ∧ 3 ≤ msg.length ∧ msg.getD 0 0 = 0xFF ∧
        (msg.getD 1 0 = 0x03 ∨ msg.getD 1 0 = 0x13)) ∧
    (ok = true →
      (t30HdlcAccept s msg ok).1.timerT2T4 = 0 ∧
      ((t30HdlcAccept s msg ok).2.2 = false →
        (t30HdlcAccept s msg ok).2.1 = [] ∧
        (t30HdlcAccept s msg ok).1.state = s.state ∧
        (t30HdlcAccept s msg ok).1.phase = s.phase)) := by
  constructor
  · intro hd
    unfold t30HdlcAccept at hd
    by_cases hok : ok = false
    · rw [if_pos hok] at hd
      split_ifs at hd
    · rw [if_neg hok] at hd
      simp only [] at hd
      by_cases h1 : msg.length < 3
      · rw [if_pos h1] at hd
        exact absurd hd (by simp)
      · rw [if_neg h1] at hd
        by_cases h2 : msg.getD 0 0 ≠ 0xFF ∨
            ¬(msg.getD 1 0 = 0x03 ∨ msg.getD 1 0 = 0x13)
        · rw [if_pos h2] at hd
          exact absurd hd (by simp)
        · push_neg at h2
          refine ⟨by revert hok; cases ok <;> simp, by omega, h2.1, h2.2⟩
  · intro hok
    unfold t30HdlcAccept
    rw [if_neg (by simp [hok])]
    simp only []
    split_ifs with h1 h2
    · exact ⟨rfl, fun _ => ⟨rfl, rfl, rfl⟩⟩
    · exact ⟨rfl, fun _ => ⟨rfl, rfl, rfl⟩⟩
    · exact ⟨rfl, fun hfd => absurd hfd (by simp)⟩

/-- Witness for `C10_theorem`: a good-FCS frame with a bad address octet is
discarded with the T2/T4 timer cancelled, nothing emitted and the session
state and phase unchanged. -/
theorem C10_witness :
    (t30HdlcAccept s0 [0x00, 0x03, 0x8C] true).1.timerT2T4 = 0 ∧
    (t30HdlcAccept s0 [0x00, 0x03, 0x8C] true).2.1 = [] ∧
    (t30HdlcAccept s0 [0x00, 0x03, 0x8C] true).1.state = s0.state ∧
    (t30HdlcAccept s0 [0x00, 0x03, 0x8C] true).1.phase = s0.phase := by
  have h := (C10_theorem s0 [0x00, 0x03, 0x8C] true).2 rfl
  have hfd : (t30HdlcAccept s0 [0x00, 0x03, 0x8C] true).2.2 = false := rfl
  exact ⟨h.1, (h.2 hfd).1, (h.2 hfd).2.1, (h.2 hfd).2.2⟩
